import Mathlib

/-!
Verification development for the hybrid natural-language payment/command
parsing pipeline of the TG_Bot_Management_System repository.

The Python sources are shallowly embedded:
* strings are `List Char` (`PyStr`);
* the regular expressions of `src/nlp/parser.py` are transcribed into a
  small pattern AST (`RE`) together with a backtracking matcher whose
  alternative/greedy/lazy order mirrors Python's `re.search` semantics for
  the constructs those patterns use;
* Python `float` amounts are rationals;
* the external OpenAI calls are modelled as `Except`-valued parameters
  (an `.error` is an exception thrown by the client, `.ok none` is a
  response whose body fails JSON decoding, `.ok (some payload)` is a
  decoded JSON payload), and `try/except` blocks are modelled by `ecatch`.
-/

/-- Python strings, modelled as lists of characters. -/
abbrev PyStr := List Char

/-- Lowercasing of a single character, covering the ASCII and Cyrillic
letters that occur in the parser patterns (`re.IGNORECASE`). -/
def lowCh (c : Char) : Char :=
  let n := c.toNat
  if 65 ≤ n ∧ n ≤ 90 then Char.ofNat (n + 32)          -- A-Z
  else if 1040 ≤ n ∧ n ≤ 1071 then Char.ofNat (n + 32) -- А-Я
  else if n = 1025 then Char.ofNat 1105                -- Ё → ё
  else c

/-- Case-insensitive character comparison (`re.IGNORECASE`). -/
def chEqCI (a b : Char) : Bool := lowCh a == lowCh b

/-- `str.lower()`. -/
def lowerStr (s : PyStr) : PyStr := s.map lowCh

/-- Python's `\s` class / `str.strip()` whitespace. -/
def isSpaceC (c : Char) : Bool :=
  c == ' ' || c == '\t' || c == '\n' || c == '\r' || c == '\x0b' || c == '\x0c'

/-- Python's `\d` class (ASCII digits). -/
def isDigitC (c : Char) : Bool := '0' ≤ c && c ≤ '9'

/-- `str.strip()` from the left. -/
def dropL (s : PyStr) : PyStr := s.dropWhile isSpaceC

/-- `str.strip()` from the right. -/
def dropT (s : PyStr) : PyStr := (s.reverse.dropWhile isSpaceC).reverse

/-- Python `str.strip()`. -/
def trim (s : PyStr) : PyStr := dropT (dropL s)

/-- Digit string to natural number. -/
def natOfDigits (s : PyStr) : Nat := s.foldl (fun a c => a * 10 + (c.toNat - 48)) 0

/-- Python `float()` restricted to the shape the amount regex capture
guarantees: `digits` optionally followed by `.` and more digits (the comma
has already been replaced by a dot).  Anything else is a `ValueError`,
modelled as `none`. -/
def parseDecimal (s : PyStr) : Option ℚ :=
  match s.dropWhile (fun c => c ≠ '.') with
  | [] =>
      if !(s.takeWhile (fun c => c ≠ '.')).isEmpty &&
          (s.takeWhile (fun c => c ≠ '.')).all isDigitC then
        some (natOfDigits (s.takeWhile (fun c => c ≠ '.')) : ℚ)
      else none
  | _ :: frac =>
      if !(s.takeWhile (fun c => c ≠ '.')).isEmpty &&
          (s.takeWhile (fun c => c ≠ '.')).all isDigitC &&
          !frac.isEmpty && frac.all isDigitC then
        some ((natOfDigits (s.takeWhile (fun c => c ≠ '.')) : ℚ) +
          (natOfDigits frac : ℚ) / (10 ^ frac.length : ℚ))
      else none

/-- Substring containment, Python's `needle in haystack`. -/
def containsSub (needle : PyStr) : PyStr → Bool
  | [] => needle.isEmpty
  | c :: cs => needle.isPrefixOf (c :: cs) || containsSub needle cs

/-- Python `try: body except: handler`. -/
def ecatch {α : Type} (body : Except Unit α) (handler : Unit → Except Unit α) : Except Unit α :=
  match body with
  | .ok a => .ok a
  | .error e => handler e

/-! ### A small regex AST and backtracking matcher

Only the constructs used by `src/nlp/parser.py` are present.  The matcher
is written in continuation-passing style; `<|>` ordering reproduces
Python's backtracking preferences (alternatives left to right, greedy
longest-first, lazy shortest-first, leftmost search position wins). -/

/-- Regex abstract syntax. -/
inductive RE where
  /-- a literal string, compared case-insensitively -/
  | lit : PyStr → RE
  /-- a single character from a class -/
  | cls : (Char → Bool) → RE
  | seq : RE → RE → RE
  | alt : RE → RE → RE
  /-- greedy `(...)?` -/
  | opt : RE → RE
  /-- greedy `c*` over a character class -/
  | starG : (Char → Bool) → RE
  /-- greedy `c+` over a character class -/
  | plusG : (Char → Bool) → RE
  /-- greedy `c{n,}` over a character class -/
  | repGE : Nat → (Char → Bool) → RE
  /-- lazy `c+?` over a character class -/
  | lazyPlus : (Char → Bool) → RE
  /-- the (single) capturing group of a pattern -/
  | group : RE → RE
  /-- lookahead `(?=...)` -/
  | look : RE → RE
  /-- end-of-string anchor `$` -/
  | eos : RE

/-- Matcher result: the contents of group 1 (if the pattern set it) and the
remainder of the input after the whole match. -/
abbrev MRes := Option PyStr × PyStr

/-- Greedy Kleene star over a character class (longest first). -/
def starGo (t : Char → Bool) (k : PyStr → Option MRes) : PyStr → Option MRes
  | [] => k []
  | c :: cs => if t c then (starGo t k cs) <|> k (c :: cs) else k (c :: cs)

/-- Lazy `+` over a character class (shortest first). -/
def lazyGo (t : Char → Bool) (k : PyStr → Option MRes) : PyStr → Option MRes
  | [] => none
  | c :: cs => if t c then (k cs) <|> lazyGo t k cs else none

/-- Case-insensitive literal matching. -/
def litGo (w : PyStr) (k : PyStr → Option MRes) (s : PyStr) : Option MRes :=
  match w, s with
  | [], s => k s
  | _ :: _, [] => none
  | a :: ws, c :: cs => if chEqCI a c then litGo ws k cs else none

/-- `c{n,}`: exactly `n` characters of the class, then a greedy star. -/
def repGo (t : Char → Bool) (k : PyStr → Option MRes) : Nat → PyStr → Option MRes
  | 0, s => starGo t k s
  | _ + 1, [] => none
  | n + 1, c :: cs => if t c then repGo t k n cs else none

/-- The backtracking matcher.  `matchRE p s k` tries to match `p` at the
start of `s` and calls the continuation `k` with the remainder; the first
success in Python's backtracking order is returned. -/
def matchRE : RE → PyStr → (PyStr → Option MRes) → Option MRes
  | .lit w, s, k => litGo w k s
  | .cls t, s, k =>
      match s with
      | [] => none
      | c :: cs => if t c then k cs else none
  | .seq a b, s, k => matchRE a s (fun r => matchRE b r k)
  | .alt a b, s, k => (matchRE a s k) <|> (matchRE b s k)
  | .opt a, s, k => (matchRE a s k) <|> k s
  | .starG t, s, k => starGo t k s
  | .plusG t, s, k =>
      match s with
      | [] => none
      | c :: cs => if t c then starGo t k cs else none
  | .repGE n t, s, k => repGo t k n s
  | .lazyPlus t, s, k => lazyGo t k s
  | .group a, s, k =>
      matchRE a s (fun rest =>
        (k rest).map (fun r => (some (s.take (s.length - rest.length)), r.2)))
  | .look a, s, k =>
      match matchRE a s (fun rest => some (none, rest)) with
      | some _ => k s
      | none => none
  | .eos, s, k =>
      match s with
      | [] => k []
      | _ :: _ => none

/-- `re.search`: try the pattern at each position, leftmost match first.
Returns `(group 1, group 0)` of the first match. -/
def searchGo (re : RE) : PyStr → Option (Option PyStr × PyStr)
  | [] =>
      match matchRE re [] (fun rest => some (none, rest)) with
      | some (g1, _) => some (g1, [])
      | none => none
  | c :: cs =>
      match matchRE re (c :: cs) (fun rest => some (none, rest)) with
      | some (g1, rest) => some (g1, (c :: cs).take ((c :: cs).length - rest.length))
      | none => searchGo re cs

/-- First pattern in a list that matches, mirroring the
`for pattern in patterns: match = re.search(...)` loops. -/
def firstSearch (ps : List RE) (text : PyStr) : Option (Option PyStr × PyStr) :=
  match ps with
  | [] => none
  | p :: rest => (searchGo p text) <|> firstSearch rest text

/-! ### Character classes of the patterns in `src/nlp/parser.py` -/

/-- `[ауы]` (case-insensitive). -/
def clsAUY (c : Char) : Bool := chEqCI c 'а' || chEqCI c 'у' || chEqCI c 'ы'

/-- `[ауь]` (case-insensitive). -/
def clsAUsoft (c : Char) : Bool := chEqCI c 'а' || chEqCI c 'у' || chEqCI c 'ь'

/-- `[её]` (case-insensitive). -/
def clsEYo (c : Char) : Bool := chEqCI c 'е' || chEqCI c 'ё'

/-- `[ыи]` (case-insensitive). -/
def clsYI (c : Char) : Bool := chEqCI c 'ы' || chEqCI c 'и'

/-- the single letter `а` (case-insensitive), for the optional `а?`. -/
def clsA (c : Char) : Bool := chEqCI c 'а'

/-- `[^на]` (case-insensitive). -/
def notNA (c : Char) : Bool := !(chEqCI c 'н' || chEqCI c 'а')

/-- `[^,]`. -/
def notComma (c : Char) : Bool := c != ','

/-- `[0-9a-fA-FxX]`. -/
def hexXC (c : Char) : Bool :=
  isDigitC c || ('a' ≤ c && c ≤ 'f') || ('A' ≤ c && c ≤ 'F') || c == 'x' || c == 'X'

/-- `[0-9a-fA-F]`. -/
def hexC (c : Char) : Bool :=
  isDigitC c || ('a' ≤ c && c ≤ 'f') || ('A' ≤ c && c ≤ 'F')

/-- `[\+\d\-\(\)\s]`. -/
def phoneC (c : Char) : Bool :=
  isDigitC c || c == '+' || c == '-' || c == '(' || c == ')' || isSpaceC c

/-- `[:=\s]`. -/
def colEqSpC (c : Char) : Bool := c == ':' || c == '=' || isSpaceC c

/-- `[:\s]`. -/
def colSpC (c : Char) : Bool := c == ':' || isSpaceC c

/-- `[.,]`. -/
def dotCommaC (c : Char) : Bool := c == '.' || c == ','

/-- `[\$₽]`. -/
def currencyC (c : Char) : Bool := c == '$' || c == '₽'

/-- `\[`. -/
def lbrackC (c : Char) : Bool := c == '['

/-- `\]`. -/
def rbrackC (c : Char) : Bool := c == ']'

/-- `,`. -/
def commaC (c : Char) : Bool := c == ','

/-- `\.`. -/
def dotC (c : Char) : Bool := c == '.'

/-- Literal pattern from a string. -/
def reLit (s : String) : RE := .lit s.toList

/-- Sequence of patterns. -/
def reSeq : List RE → RE
  | [] => .lit []
  | [r] => r
  | r :: rs => .seq r (reSeq rs)

namespace PaymentParser

/-- `self.service_patterns` of `PaymentParser.__init__`. -/
def service_patterns : List RE :=
  [ -- r"сервиса?\s+([^на]+?)(?=\s+на)"
    reSeq [reLit "сервис", .opt (.cls clsA), .plusG isSpaceC,
           .group (.lazyPlus notNA), .look (reSeq [.plusG isSpaceC, reLit "на"])],
    -- r"оплат[ауь]\s+сервиса?\s+([^на]+?)(?=\s+на)"
    reSeq [reLit "оплат", .cls clsAUsoft, .plusG isSpaceC, reLit "сервис", .opt (.cls clsA),
           .plusG isSpaceC, .group (.lazyPlus notNA), .look (reSeq [.plusG isSpaceC, reLit "на"])],
    -- r"оплат[ауь]\s+([^на]+?)(?=\s+на)"
    reSeq [reLit "оплат", .cls clsAUsoft, .plusG isSpaceC,
           .group (.lazyPlus notNA), .look (reSeq [.plusG isSpaceC, reLit "на"])],
    -- r"(?:для|за)\s+([^на]+?)(?=\s+на\s+сумму)"
    reSeq [.alt (reLit "для") (reLit "за"), .plusG isSpaceC, .group (.lazyPlus notNA),
           .look (reSeq [.plusG isSpaceC, reLit "на", .plusG isSpaceC, reLit "сумму"])] ]

/-- `\[?(\d+(?:[.,]\d+)?)\]?\s*[\$₽]`, the shared tail of the amount patterns. -/
def amountTail : RE :=
  reSeq [.opt (.cls lbrackC),
         .group (.seq (.plusG isDigitC) (.opt (.seq (.cls dotCommaC) (.plusG isDigitC)))),
         .opt (.cls rbrackC), .starG isSpaceC, .cls currencyC]

/-- `self.amount_patterns`. -/
def amount_patterns : List RE :=
  [ -- r"(?:на\s+сумму\s+|на\s+)\[?(\d+(?:[.,]\d+)?)\]?\s*[\$₽]"
    .seq (.alt (reSeq [reLit "на", .plusG isSpaceC, reLit "сумму", .plusG isSpaceC])
               (reSeq [reLit "на", .plusG isSpaceC])) amountTail,
    -- r"\[?(\d+(?:[.,]\d+)?)\]?\s*[\$₽]"
    amountTail,
    -- r"сумма[:\s]+\[?(\d+(?:[.,]\d+)?)\]?\s*[\$₽]"
    .seq (reSeq [reLit "сумма", .plusG colSpC]) amountTail ]

/-- `self.project_patterns`. -/
def project_patterns : List RE :=
  [ -- r"(?:для\s+)?проекта?\s+([^,]+?)(?=,|$)"
    reSeq [.opt (reSeq [reLit "для", .plusG isSpaceC]), reLit "проект", .opt (.cls clsA),
           .plusG isSpaceC, .group (.lazyPlus notComma), .look (.alt (.cls commaC) .eos)],
    -- r"проект[:\s]+([^,]+?)(?=,|$)"
    reSeq [reLit "проект", .plusG colSpC, .group (.lazyPlus notComma),
           .look (.alt (.cls commaC) .eos)],
    -- r"по\s+проекту\s+([^,]+?)(?=,|$)"
    reSeq [reLit "по", .plusG isSpaceC, reLit "проекту", .plusG isSpaceC,
           .group (.lazyPlus notComma), .look (.alt (.cls commaC) .eos)] ]

/-- `self.crypto_patterns`. -/
def crypto_patterns : List RE :=
  [ -- r"криптовалют[ауы][:=\s]*([0-9a-fA-FxX]{10,})"
    reSeq [reLit "криптовалют", .cls clsAUY, .starG colEqSpC, .group (.repGE 10 hexXC)],
    -- r"кошел[её]к[:=\s]*([0-9a-fA-FxX]{10,})"
    reSeq [reLit "кошел", .cls clsEYo, reLit "к", .starG colEqSpC, .group (.repGE 10 hexXC)],
    -- r"адрес[:=\s]*([0-9a-fA-FxX]{10,})"
    reSeq [reLit "адрес", .starG colEqSpC, .group (.repGE 10 hexXC)],
    -- r"0x[0-9a-fA-F]{10,}"  (no capture group)
    .seq (reLit "0x") (.repGE 10 hexC),
    -- r"[0-9a-fA-F]{20,}"  (no capture group)
    .repGE 20 hexC ]

/-- `self.phone_patterns`. -/
def phone_patterns : List RE :=
  [ -- r"(?:номер\s+)?телефон[ауы]?[:=\s]*([\+\d\-\(\)\s]{7,})"
    reSeq [.opt (reSeq [reLit "номер", .plusG isSpaceC]), reLit "телефон", .opt (.cls clsAUY),
           .starG colEqSpC, .group (.repGE 7 phoneC)],
    -- r"тел\.?[:=\s]*([\+\d\-\(\)\s]{7,})"
    reSeq [reLit "тел", .opt (.cls dotC), .starG colEqSpC, .group (.repGE 7 phoneC)],
    -- r"моб\.?[:=\s]*([\+\d\-\(\)\s]{7,})"
    reSeq [reLit "моб", .opt (.cls dotC), .starG colEqSpC, .group (.repGE 7 phoneC)] ]

/-- `self.account_patterns`. -/
def account_patterns : List RE :=
  [ -- r"счет[её]?[:=\s]*([^,]+?)(?=,|$)"
    reSeq [reLit "счет", .opt (.cls clsEYo), .starG colEqSpC, .group (.lazyPlus notComma),
           .look (.alt (.cls commaC) .eos)],
    -- r"карт[ауы][:=\s]*([^,]+?)(?=,|$)"
    reSeq [reLit "карт", .cls clsAUY, .starG colEqSpC, .group (.lazyPlus notComma),
           .look (.alt (.cls commaC) .eos)],
    -- r"реквизит[ыи][:=\s]*([^,]+?)(?=,|$)"
    reSeq [reLit "реквизит", .cls clsYI, .starG colEqSpC, .group (.lazyPlus notComma),
           .look (.alt (.cls commaC) .eos)] ]

/-- `r"крипто|криптовалюта"` (fallback keyword check). -/
def kw_crypto : RE := .alt (reLit "крипто") (reLit "криптовалюта")

/-- `r"телефон"` (fallback keyword check). -/
def kw_phone : RE := reLit "телефон"

/-- `r"счет|реквизит|карта"` (fallback keyword check). -/
def kw_account : RE := .alt (reLit "счет") (.alt (reLit "реквизит") (reLit "карта"))

/-- `r"файл|qr|код|скан|прикреп"` (fallback keyword check). -/
def kw_file : RE :=
  .alt (reLit "файл") (.alt (reLit "qr") (.alt (reLit "код") (.alt (reLit "скан") (reLit "прикреп"))))

/-- Does `re.search` succeed at all (used for the bare keyword fallbacks). -/
def searchAny (re : RE) (text : PyStr) : Bool := (searchGo re text).isSome

/-- Drop a case-insensitive literal prefix. -/
def dropPrefixCI : PyStr → PyStr → Option PyStr
  | [], s => some s
  | _ :: _, [] => none
  | a :: ws, c :: cs => if chEqCI a c then dropPrefixCI ws cs else none

/-- `re.sub(r"^(word)\s+", "", s)` for a single word: if `s` starts with the
word followed by at least one whitespace character, remove the word and the
(greedy) whitespace run after it. -/
def stripWordSpace (w s : PyStr) : Option PyStr :=
  match dropPrefixCI w s with
  | none => none
  | some r =>
      match r with
      | [] => none
      | c :: cs => if isSpaceC c then some (cs.dropWhile isSpaceC) else none

/-- `re.sub(r"^(w1|w2|...)\s+", "", s)`: the first alternative that matches
at the start is removed; otherwise `s` is unchanged. -/
def stripLeadingWords (ws : List PyStr) (s : PyStr) : PyStr :=
  match ws with
  | [] => s
  | w :: rest =>
      match stripWordSpace w s with
      | some r => r
      | none => stripLeadingWords rest s

/-- `PaymentParser._extract_service_name`. -/
def extract_service_name (text : PyStr) : Option PyStr :=
  (firstSearch service_patterns text).map (fun r =>
    stripLeadingWords ["оплата".toList, "нужна".toList, "требуется".toList] (trim (r.1.getD [])))

/-- The body of the `for pattern in self.amount_patterns` loop: on a match,
`float()` is attempted on the capture (comma replaced by dot, spaces
removed); a `ValueError` falls through to the next pattern. -/
def amountLoop : List RE → PyStr → Option ℚ
  | [], _ => none
  | p :: rest, text =>
      match searchGo p text with
      | some r =>
          match parseDecimal (((r.1.getD []).map (fun c => if c = ',' then '.' else c)).filter
              (fun c => c ≠ ' ')) with
          | some a => some a
          | none => amountLoop rest text
      | none => amountLoop rest text

/-- `PaymentParser._extract_amount`. -/
def extract_amount (text : PyStr) : Option ℚ := amountLoop amount_patterns text

/-- `PaymentParser._extract_project_name`. -/
def extract_project_name (text : PyStr) : Option PyStr :=
  (firstSearch project_patterns text).map (fun r =>
    stripLeadingWords ["для".toList] (trim (r.1.getD [])))

/-- `re.sub(r"[^\d\+\-\(\)]", "", phone_number)`. -/
def phoneCleanup (s : PyStr) : PyStr :=
  s.filter (fun c => isDigitC c || c == '+' || c == '-' || c == '(' || c == ')')

/-- `PaymentParser._extract_payment_method`.  In the source a pattern with a
capture group yields `match.group(1)`, a group-less pattern yields
`match.group(0)` (hence `r.1.getD r.2`); a missing-details fallback stores
`None`, which the caller turns into `""` — modelled directly as `[]`. -/
def extract_payment_method (text : PyStr) : Option PyStr × PyStr :=
  match firstSearch crypto_patterns text with
  | some r => (some "crypto".toList, r.1.getD r.2)
  | none =>
  match firstSearch phone_patterns text with
  | some r => (some "phone".toList, phoneCleanup (trim (r.1.getD [])))
  | none =>
  match firstSearch account_patterns text with
  | some r => (some "account".toList, trim (r.1.getD []))
  | none =>
  if searchAny kw_crypto text then (some "crypto".toList, [])
  else if searchAny kw_phone text then (some "phone".toList, [])
  else if searchAny kw_account text then (some "account".toList, [])
  else if searchAny kw_file text then (some "file".toList, "Файл будет прикреплен".toList)
  else (none, [])

end PaymentParser

/-- The payment-request record built by the parsers (the Python dict with
keys `service_name`, `amount`, `project_name`, `payment_method`,
`payment_details`). -/
structure PaymentData where
  service_name : PyStr
  amount : ℚ
  project_name : PyStr
  payment_method : PyStr
  payment_details : PyStr
deriving DecidableEq, Repr

namespace PaymentParser

/-- `PaymentParser.parse_payment_message`.  Each `if not x` guard mirrors
Python truthiness (`None`, `""` and `0.0` are falsy). -/
def parse_payment_message (text : PyStr) : Option PaymentData :=
  if text.isEmpty then none
  else
    match extract_service_name (trim text) with
    | none => none
    | some service_name =>
      if service_name.isEmpty then none
      else
        match extract_amount (trim text) with
        | none => none
        | some amount =>
          if amount = 0 then none
          else
            match extract_project_name (trim text) with
            | none => none
            | some project_name =>
              if project_name.isEmpty then none
              else
                match extract_payment_method (trim text) with
                | (none, _) => none
                | (some payment_method, payment_details) =>
                    some { service_name := trim service_name
                           amount := amount
                           project_name := trim project_name
                           payment_method := payment_method
                           payment_details := trim payment_details }

/-- `["crypto", "phone", "account", "file"]`. -/
def valid_methods : List PyStr :=
  ["crypto".toList, "phone".toList, "account".toList, "file".toList]

/-- `PaymentParser.validate_payment_data`: the four required fields must be
truthy, the amount positive, and the method one of the enumerated values. -/
def validate_payment_data (d : PaymentData) : Bool :=
  !d.service_name.isEmpty && d.amount != 0 && !d.project_name.isEmpty &&
    !d.payment_method.isEmpty && !(decide (d.amount ≤ 0)) &&
    valid_methods.contains d.payment_method

end PaymentParser

/-! ### `src/nlp/nlp_parser.py` — `NLPPaymentParser` (LLM fallback path)

The GPT response is modelled post-JSON-decoding as a typed payload whose
string fields are `Option PyStr` (`none` = key absent or JSON `null`) and
whose number fields are `Option ℚ`.  Payloads whose fields carry other
JSON types are rejected by the `isinstance` checks in the source and are
not represented. -/

/-- The decoded JSON payload expected from GPT by `NLPPaymentParser`. -/
structure PaymentJson where
  service_name : Option PyStr
  amount : Option ℚ
  project_name : Option PyStr
  payment_method : Option PyStr
  payment_details : Option PyStr
deriving DecidableEq, Repr

namespace NLPPaymentParser

/-- `NLPPaymentParser._validate_parsed_data`. -/
def validate_parsed_data (d : PaymentJson) : Bool :=
  -- required fields present and not None
  d.service_name.isSome && d.amount.isSome && d.project_name.isSome &&
    d.payment_method.isSome &&
    -- service_name: a non-empty-after-strip string
    !(trim (d.service_name.getD [])).isEmpty &&
    -- amount: a number > 0
    decide (0 < d.amount.getD 0) &&
    -- project_name: a non-empty-after-strip string
    !(trim (d.project_name.getD [])).isEmpty &&
    -- payment_method in ["crypto", "phone", "account", "file"]
    PaymentParser.valid_methods.contains (d.payment_method.getD [])

/-- The `service_mappings` dict of `NLPPaymentParser._normalize_data`
(insertion order preserved, as in CPython). -/
def service_mappings : List (PyStr × PyStr) :=
  [ ("facebook".toList, "Facebook Ads".toList),
    ("фейсбук".toList, "Facebook Ads".toList),
    ("fb".toList, "Facebook Ads".toList),
    ("google ads".toList, "Google Ads".toList),
    ("гугл".toList, "Google Ads".toList),
    ("гугл адс".toList, "Google Ads".toList),
    ("instagram".toList, "Instagram Ads".toList),
    ("инстаграм".toList, "Instagram Ads".toList),
    ("insta".toList, "Instagram Ads".toList),
    ("tiktok".toList, "TikTok Ads".toList),
    ("тикток".toList, "TikTok Ads".toList),
    ("youtube".toList, "YouTube Ads".toList),
    ("ютуб".toList, "YouTube Ads".toList) ]

/-- The `for key, value in service_mappings.items(): if key in service_lower:
... break` loop: the first mapping whose key occurs in the lowercased
service name wins; otherwise the name is unchanged. -/
def applyServiceMapping (s : PyStr) : PyStr :=
  match service_mappings.find? (fun kv => containsSub kv.1 (lowerStr s)) with
  | some kv => kv.2
  | none => s

/-- `NLPPaymentParser._normalize_data` (only called on validated data; the
`data.get("payment_details", "")` default is modelled by `getD []`). -/
def normalize_data (d : PaymentJson) : PaymentData :=
  { service_name := applyServiceMapping (trim (d.service_name.getD []))
    amount := d.amount.getD 0
    project_name := trim (d.project_name.getD [])
    payment_method := lowerStr (d.payment_method.getD [])
    payment_details := trim (d.payment_details.getD []) }

/-- `NLPPaymentParser.parse_payment_message`.  `resp` is the outcome of the
OpenAI call: `.error` = the client raised, `.ok none` = the response body
is not valid JSON (`json.JSONDecodeError` branch), `.ok (some d)` = the
decoded payload.  All exceptions are caught and converted to `None`. -/
def parse_payment_message (resp : Except Unit (Option PaymentJson)) (text : PyStr) :
    Except Unit (Option PaymentData) :=
  if text.isEmpty || (trim text).isEmpty then .ok none
  else
    ecatch
      (match resp with
       | .error e => .error e
       | .ok none => .ok none
       | .ok (some d) =>
           if validate_parsed_data d then .ok (some (normalize_data d)) else .ok none)
      (fun _ => .ok none)

end NLPPaymentParser

namespace HybridPaymentParser

/-- The NLP fallback stage of `HybridPaymentParser.parse_payment_message`
(the second `try/except` block): the client outcome is consumed, any
exception is caught, and the flag records that the client was invoked. -/
def nlpFallback (nlp : Except Unit (Option PaymentData)) :
    Except Unit (Option PaymentData × Bool) :=
  ecatch
    (match nlp with
     | .error e => .error e
     | .ok (some r) => .ok (some r, true)
     | .ok none => .ok (none, true))
    (fun _ => .ok (none, true))

/-- `HybridPaymentParser.parse_payment_message`.  The regex path runs
first; only if it fails (or its result fails validation) is the NLP client
consulted.  The returned `Bool` records whether the Structured-Extraction
Client was invoked.  `nlp` is the outcome of
`NLPPaymentParser.parse_payment_message` on the stripped text. -/
def parse_payment_message (nlp : Except Unit (Option PaymentData)) (text : PyStr) :
    Except Unit (Option PaymentData × Bool) :=
  if text.isEmpty || (trim text).isEmpty then .ok (none, false)
  else
    match PaymentParser.parse_payment_message (trim text) with
    | some r =>
        if PaymentParser.validate_payment_data r then .ok (some r, false) else nlpFallback nlp
    | none => nlpFallback nlp

/-- The composition actually run by the bot: the hybrid parser whose NLP
stage is `NLPPaymentParser.parse_payment_message` applied to the GPT
response `resp`. -/
def parse_with_nlp (resp : Except Unit (Option PaymentJson)) (text : PyStr) :
    Except Unit (Option PaymentData × Bool) :=
  parse_payment_message (NLPPaymentParser.parse_payment_message resp (trim text)) text

end HybridPaymentParser

/-! ### `src/nlp/universal_ai_parser.py` — `UniversalAIParser` -/

/-- The decoded JSON payload expected from GPT by `UniversalAIParser`
(string fields: `none` = key absent or JSON `null`). -/
structure OpJson where
  operation_type : Option PyStr
  amount : Option ℚ
  description : Option PyStr
  platform : Option PyStr
  project : Option PyStr
  payment_method : Option PyStr
  payment_details : Option PyStr
  confidence : Option ℚ
deriving DecidableEq, Repr

/-- The normalized operation record produced by
`UniversalAIParser._normalize_parsed_data`. -/
structure OpData where
  operation_type : PyStr
  amount : Option ℚ
  description : PyStr
  platform : Option PyStr
  project : Option PyStr
  payment_method : Option PyStr
  payment_details : Option PyStr
  confidence : ℚ
deriving DecidableEq, Repr

namespace UniversalAIParser

/-- The `valid_operations` list of `_validate_parsed_data`. -/
def valid_operations : List PyStr :=
  ["balance_add".toList, "balance_reset".toList, "payment_request".toList,
   "analytics_query".toList, "system_command".toList, "unknown".toList]

/-- `UniversalAIParser._validate_parsed_data`. -/
def validate_parsed_data (d : OpJson) : Bool :=
  -- required fields: "operation_type", "confidence" must be present
  d.operation_type.isSome && d.confidence.isSome &&
    -- operation_type in valid_operations
    valid_operations.contains (d.operation_type.getD []) &&
    -- confidence a number in [0, 1]
    decide (0 ≤ d.confidence.getD 0) && decide (d.confidence.getD 0 ≤ 1) &&
    -- for balance_add / payment_request: amount, if present, must be > 0
    (if (d.operation_type.getD [] = "balance_add".toList ||
         d.operation_type.getD [] = "payment_request".toList) then
       match d.amount with
       | none => true
       | some a => decide (0 < a)
     else true)

/-- `str(x).strip() if x else None` — the normalization of the optional
string fields `platform`, `project`, `payment_method`, `payment_details`.
A falsy value (absent, `null` or `""`) becomes `None`; a truthy string is
stripped (so a whitespace-only string becomes `""`, not `None`). -/
def normOptStr (x : Option PyStr) : Option PyStr :=
  match x with
  | none => none
  | some s => if s.isEmpty then none else some (trim s)

/-- `UniversalAIParser._normalize_parsed_data`. -/
def normalize_parsed_data (d : OpJson) : OpData :=
  { operation_type := d.operation_type.getD []
    amount := d.amount
    description := trim (d.description.getD [])
    platform := normOptStr d.platform
    project := normOptStr d.project
    payment_method := normOptStr d.payment_method
    payment_details := normOptStr d.payment_details
    confidence := d.confidence.getD 0 }

/-- Re-reading a normalized record as a payload dict (every key of the
output dict is present; a `None` value reads back as an absent/`null`
field). -/
def opDataToJson (d : OpData) : OpJson :=
  { operation_type := some d.operation_type
    amount := d.amount
    description := some d.description
    platform := d.platform
    project := d.project
    payment_method := d.payment_method
    payment_details := d.payment_details
    confidence := some d.confidence }

/-- `UniversalAIParser.parse_message`.  The `user_role` argument only
selects prompt framing in the source and does not influence the
result shape, so it is carried but unused.  `resp` is the outcome of the
OpenAI call as in `NLPPaymentParser.parse_payment_message`. -/
def parse_message (resp : Except Unit (Option OpJson)) (text : PyStr) (_userRole : PyStr) :
    Except Unit (Option OpData) :=
  if text.isEmpty || (trim text).isEmpty then .ok none
  else
    ecatch
      (match resp with
       | .error e => .error e
       | .ok none => .ok none
       | .ok (some d) =>
           if validate_parsed_data d then .ok (some (normalize_parsed_data d)) else .ok none)
      (fun _ => .ok none)

end UniversalAIParser

/-! ### `src/nlp/command_parser.py` — `CommandNLPParser` -/

/-- The decoded JSON payload expected from GPT by `CommandNLPParser`. -/
structure CmdJson where
  command : Option PyStr
  confidence : Option ℚ
deriving DecidableEq, Repr

namespace CommandNLPParser

/-- The `valid_commands` list of `_validate_command`. -/
def valid_commands : List PyStr :=
  ["start".toList, "help".toList, "balance".toList, "stats".toList]

/-- The `permissions` dict of `CommandNLPParser._check_command_permission`. -/
def permissions : List (PyStr × List PyStr) :=
  [ ("start".toList, ["marketer".toList, "financier".toList, "manager".toList]),
    ("help".toList, ["marketer".toList, "financier".toList, "manager".toList]),
    ("balance".toList, ["financier".toList, "manager".toList]),
    ("stats".toList, ["manager".toList]) ]

/-- `CommandNLPParser._check_command_permission`. -/
def check_command_permission (command user_role : PyStr) : Bool :=
  (((permissions.find? (fun kv => kv.1 = command)).map Prod.snd).getD []).contains user_role

/-- `CommandNLPParser._validate_command`.  `user_role = None` (or an empty
string) skips the permission check, mirroring `if user_role and ...`. -/
def validate_command (d : CmdJson) (user_role : Option PyStr) : Bool :=
  match d.command with
  | none => false        -- null command: not a command
  | some c =>
      valid_commands.contains c &&
      (match user_role with
       | none => true
       | some r => if r.isEmpty then true else check_command_permission c r) &&
      -- confidence >= 0.5 (data.get("confidence", 0))
      -- 0.5 is written `mkRat 1 2` (a reduced rational literal)
      !(decide (d.confidence.getD 0 < mkRat 1 2))

/-- `CommandNLPParser.parse_command`.  On success the decoded payload is
returned unchanged. -/
def parse_command (resp : Except Unit (Option CmdJson)) (text : PyStr)
    (user_role : Option PyStr) : Except Unit (Option CmdJson) :=
  if text.isEmpty || (trim text).isEmpty then .ok none
  else
    ecatch
      (match resp with
       | .error e => .error e
       | .ok none => .ok none
       | .ok (some d) => if validate_command d user_role then .ok (some d) else .ok none)
      (fun _ => .ok none)

end CommandNLPParser

/-! ### Routing layers: `src/handlers/manager.py` and
`src/handlers/nlp_command_handler.py` -/

/-- The routing decision taken by `add_balance_handler`
(`src/handlers/manager.py`) once the smart router has declined the message
and `UniversalAIParser.parse_message` has produced `parsed` (or failed). -/
inductive MgrRoute where
  | unparseable       -- parsed_data is None → handle_unparseable_message
  | lowConfidence     -- confidence < 0.7 → handle_low_confidence_message
  | balanceAdd        -- process_balance_add
  | balanceReset      -- process_balance_reset
  | analyticsQuery    -- process_analytics_query
  | systemCommand     -- process_system_command
  | unknownOperation  -- handle_unknown_operation
deriving DecidableEq, Repr

/-- The confidence-gating dispatch of `add_balance_handler`
(`src/handlers/manager.py`, lines 242–265). -/
def manager_route (parsed : Option OpData) : MgrRoute :=
  match parsed with
  | none => .unparseable
  | some d =>
      -- 0.7 is written `mkRat 7 10` (a reduced rational literal)
      if d.confidence < mkRat 7 10 then .lowConfidence
      else if d.operation_type = "balance_add".toList then .balanceAdd
      else if d.operation_type = "balance_reset".toList then .balanceReset
      else if d.operation_type = "analytics_query".toList then .analyticsQuery
      else if d.operation_type = "system_command".toList then .systemCommand
      else .unknownOperation

/-- The visible action taken by `nlp_command_handler`
(`src/handlers/nlp_command_handler.py`). -/
inductive CmdAction where
  | noAction          -- unauthorized / not a command / parse failure
  | startHandler      -- handlers.common.start_handler
  | helpHandler       -- handlers.common.help_handler
  | managerStats      -- handlers.manager.statistics_handler
  | financierBalance  -- handlers.financier.balance_command_handler
  | denyBalance       -- "нет доступа к информации о балансе"
  | denyStats         -- "нет доступа к статистике"
deriving DecidableEq, Repr

/-- `nlp_command_handler`: parse the text as a command for the caller's
role, then dispatch with an in-branch permission re-check.  `role` is
`Config.get_user_role(user_id)` (one of `marketer`, `financier`,
`manager`, `unknown`); `resp` is the GPT outcome fed to
`CommandNLPParser.parse_command`. -/
def nlp_command_handler (role : PyStr) (resp : Except Unit (Option CmdJson))
    (text : PyStr) : CmdAction :=
  if role = "unknown".toList then .noAction
  else if text.isEmpty then .noAction
  else
    match CommandNLPParser.parse_command resp text (some role) with
    | .error _ => .noAction   -- outer try/except: errors are logged, no action
    | .ok none => .noAction
    | .ok (some d) =>
        if d.command.getD [] = "start".toList then .startHandler
        else if d.command.getD [] = "help".toList then .helpHandler
        else if d.command.getD [] = "balance".toList then
          if role = "financier".toList || role = "manager".toList then
            (if role = "manager".toList then .managerStats else .financierBalance)
          else .denyBalance
        else if d.command.getD [] = "stats".toList then
          (if role = "manager".toList then .managerStats else .denyStats)
        else .noAction

/-! ### Helper lemmas about `strip` and the extractors -/

/-- No leading whitespace. -/
def noLead (s : PyStr) : Prop := s.dropWhile isSpaceC = s

/-- No trailing whitespace. -/
def noTrail (s : PyStr) : Prop := s.reverse.dropWhile isSpaceC = s.reverse

theorem dropWhile_head_false {p : Char → Bool} :
    ∀ (l : PyStr) {c : Char} {cs : PyStr}, l.dropWhile p = c :: cs → p c = false
  | [], _, _, h => by simp [List.dropWhile] at h
  | a :: as, c, cs, h => by
      by_cases hp : p a
      · simp only [List.dropWhile, hp] at h
        exact dropWhile_head_false as h
      · simp only [List.dropWhile, Bool.not_eq_true] at h hp
        rw [hp] at h
        simp only [List.cons.injEq] at h
        rw [← h.1]; exact hp

theorem dropWhile_eq_self_of_head {p : Char → Bool} {c : Char} {cs : PyStr}
    (h : p c = false) : (c :: cs).dropWhile p = c :: cs := by
  simp [List.dropWhile, h]

theorem dropWhile_idem {p : Char → Bool} (l : PyStr) :
    (l.dropWhile p).dropWhile p = l.dropWhile p := by
  cases hl : l.dropWhile p with
  | nil => rfl
  | cons c cs => exact dropWhile_eq_self_of_head (dropWhile_head_false l hl)

theorem head_false_of_noLead {c : Char} {cs : PyStr}
    (h : (c :: cs).dropWhile isSpaceC = c :: cs) : isSpaceC c = false := by
  by_contra hp
  rw [Bool.not_eq_false] at hp
  simp only [List.dropWhile, hp] at h
  have hle := (List.dropWhile_suffix (l := cs) isSpaceC).length_le
  rw [h] at hle
  simp at hle

theorem dropT_prefix (s : PyStr) : dropT s <+: s := by
  have h := (List.dropWhile_suffix (l := s.reverse) isSpaceC).reverse
  simpa [dropT] using h

theorem noLead_dropT {s : PyStr} (h : noLead s) : noLead (dropT s) := by
  cases hd : dropT s with
  | nil => simp [noLead, hd, List.dropWhile]
  | cons c cs =>
      have hpre := dropT_prefix s
      rw [hd] at hpre
      obtain ⟨t, ht⟩ := hpre
      have hs : s = c :: (cs ++ t) := by rw [← ht]; simp
      rw [hs] at h
      have hc := head_false_of_noLead h
      unfold noLead
      exact dropWhile_eq_self_of_head hc

theorem noLead_trim (s : PyStr) : noLead (trim s) :=
  noLead_dropT (dropWhile_idem s)

theorem noTrail_trim (s : PyStr) : noTrail (trim s) := by
  unfold noTrail
  have hrev : (trim s).reverse = (dropL s).reverse.dropWhile isSpaceC := by
    simp [trim, dropT]
  rw [hrev]
  exact dropWhile_idem _

theorem trim_eq_self {s : PyStr} (h1 : noLead s) (h2 : noTrail s) : trim s = s := by
  unfold trim dropT dropL
  unfold noLead at h1
  unfold noTrail at h2
  rw [h1, h2, List.reverse_reverse]

theorem trim_trim (s : PyStr) : trim (trim s) = trim s :=
  trim_eq_self (noLead_trim s) (noTrail_trim s)

theorem noTrail_of_suffix {r s : PyStr} (h : noTrail s) (hr : r <:+ s) : noTrail r := by
  cases hre : r.reverse with
  | nil => simp [noTrail, hre, List.dropWhile]
  | cons c cs =>
      have hp : r.reverse <+: s.reverse := hr.reverse
      rw [hre] at hp
      obtain ⟨t, ht⟩ := hp
      have hs : s.reverse = c :: (cs ++ t) := by rw [← ht]; simp
      unfold noTrail at h
      rw [hs] at h
      have hc := head_false_of_noLead h
      unfold noTrail
      rw [hre]
      exact dropWhile_eq_self_of_head hc

namespace PaymentParser

theorem dropPrefixCI_suffix :
    ∀ (w s r : PyStr), dropPrefixCI w s = some r → r <:+ s
  | [], s, r, h => by
      simp only [dropPrefixCI, Option.some.injEq] at h
      rw [← h]
  | _ :: _, [], r, h => by simp [dropPrefixCI] at h
  | a :: ws, c :: cs, r, h => by
      simp only [dropPrefixCI] at h
      by_cases hc : chEqCI a c
      · rw [if_pos hc] at h
        exact (dropPrefixCI_suffix ws cs r h).trans (List.suffix_cons c cs)
      · rw [if_neg hc] at h
        exact absurd h (by simp)

theorem stripWordSpace_cases {w s r : PyStr} (h : stripWordSpace w s = some r) :
    ∃ c cs, dropPrefixCI w s = some (c :: cs) ∧ isSpaceC c = true ∧
      r = cs.dropWhile isSpaceC := by
  unfold stripWordSpace at h
  split at h
  · exact absurd h (by simp)
  · rename_i r0 heq
    split at h
    · exact absurd h (by simp)
    · rename_i c cs
      split at h
      · rename_i hsp
        simp only [Option.some.injEq] at h
        exact ⟨c, cs, heq, hsp, h.symm⟩
      · exact absurd h (by simp)

theorem stripWordSpace_suffix {w s r : PyStr} (h : stripWordSpace w s = some r) :
    r <:+ s := by
  obtain ⟨c, cs, hd, _, hr⟩ := stripWordSpace_cases h
  rw [hr]
  exact ((List.dropWhile_suffix isSpaceC).trans (List.suffix_cons c cs)).trans
    (dropPrefixCI_suffix w s _ hd)

theorem stripWordSpace_noLead {w s r : PyStr} (h : stripWordSpace w s = some r) :
    noLead r := by
  obtain ⟨c, cs, _, _, hr⟩ := stripWordSpace_cases h
  rw [hr]
  exact dropWhile_idem cs

theorem stripLeadingWords_trimmed :
    ∀ (ws : List PyStr) (s : PyStr), noLead s → noTrail s →
      trim (stripLeadingWords ws s) = stripLeadingWords ws s
  | [], s, h1, h2 => by simpa [stripLeadingWords] using trim_eq_self h1 h2
  | w :: rest, s, h1, h2 => by
      unfold stripLeadingWords
      cases hw : stripWordSpace w s with
      | some r =>
          exact trim_eq_self (stripWordSpace_noLead hw)
            (noTrail_of_suffix h2 (stripWordSpace_suffix hw))
      | none => exact stripLeadingWords_trimmed rest s h1 h2

theorem extract_service_name_trimmed {t s : PyStr}
    (h : extract_service_name t = some s) : trim s = s := by
  unfold extract_service_name at h
  cases hf : firstSearch service_patterns t with
  | none => rw [hf] at h; exact absurd h (by simp)
  | some r =>
      rw [hf] at h
      simp only [Option.map, Option.some.injEq] at h
      rw [← h]
      exact stripLeadingWords_trimmed _ _ (noLead_trim _) (noTrail_trim _)

theorem extract_project_name_trimmed {t s : PyStr}
    (h : extract_project_name t = some s) : trim s = s := by
  unfold extract_project_name at h
  cases hf : firstSearch project_patterns t with
  | none => rw [hf] at h; exact absurd h (by simp)
  | some r =>
      rw [hf] at h
      simp only [Option.map, Option.some.injEq] at h
      rw [← h]
      exact stripLeadingWords_trimmed _ _ (noLead_trim _) (noTrail_trim _)

end PaymentParser

theorem parseDecimal_nonneg {s : PyStr} {q : ℚ} (h : parseDecimal s = some q) : 0 ≤ q := by
  unfold parseDecimal at h
  split at h
  · split at h
    · simp only [Option.some.injEq] at h
      rw [← h]
      positivity
    · exact absurd h (by simp)
  · split at h
    · simp only [Option.some.injEq] at h
      rw [← h]
      positivity
    · exact absurd h (by simp)

namespace PaymentParser

theorem amountLoop_nonneg :
    ∀ (ps : List RE) (t : PyStr) {q : ℚ}, amountLoop ps t = some q → 0 ≤ q
  | [], t, q, h => by simp [amountLoop] at h
  | p :: rest, t, q, h => by
      unfold amountLoop at h
      split at h
      · split at h
        · rename_i hp
          simp only [Option.some.injEq] at h
          rw [← h]
          exact parseDecimal_nonneg hp
        · exact amountLoop_nonneg rest t h
      · exact amountLoop_nonneg rest t h

theorem extract_amount_nonneg {t : PyStr} {q : ℚ} (h : extract_amount t = some q) : 0 ≤ q :=
  amountLoop_nonneg amount_patterns t h

theorem extract_payment_method_mem {t m dt : PyStr}
    (h : extract_payment_method t = (some m, dt)) : m ∈ valid_methods := by
  unfold extract_payment_method at h
  repeat' split at h
  all_goals
    simp only [Prod.mk.injEq, Option.some.injEq] at h
  all_goals
    first
    | (rw [← h.1]; decide)
    | exact absurd h.1 (by simp)

end PaymentParser

namespace PaymentParser

theorem parse_payment_message_spec {text : PyStr} {r : PaymentData}
    (h : parse_payment_message text = some r) :
    ∃ s a p m dt,
      extract_service_name (trim text) = some s ∧ s ≠ [] ∧
      extract_amount (trim text) = some a ∧ a ≠ 0 ∧
      extract_project_name (trim text) = some p ∧ p ≠ [] ∧
      extract_payment_method (trim text) = (some m, dt) ∧
      r = ⟨trim s, a, trim p, m, trim dt⟩ := by
  unfold parse_payment_message at h
  split at h
  · exact absurd h (by simp)
  split at h
  · exact absurd h (by simp)
  rename_i s hs
  split at h
  · exact absurd h (by simp)
  rename_i hsne
  split at h
  · exact absurd h (by simp)
  rename_i a ha
  split at h
  · exact absurd h (by simp)
  rename_i hane
  split at h
  · exact absurd h (by simp)
  rename_i p hp
  split at h
  · exact absurd h (by simp)
  rename_i hpne
  split at h
  · exact absurd h (by simp)
  rename_i m dt hm
  simp only [Option.some.injEq] at h
  refine ⟨s, a, p, m, dt, hs, ?_, ha, hane, hp, ?_, hm, h.symm⟩
  · simpa using hsne
  · simpa using hpne

theorem parse_payment_message_valid {text : PyStr} {r : PaymentData}
    (h : parse_payment_message text = some r) : validate_payment_data r = true := by
  obtain ⟨s, a, p, m, dt, hs, hsne, ha, hane, hp, hpne, hm, hr⟩ := parse_payment_message_spec h
  have hst : trim s = s := extract_service_name_trimmed hs
  have hpt : trim p = p := extract_project_name_trimmed hp
  have h0 : 0 < a := lt_of_le_of_ne (extract_amount_nonneg ha) (Ne.symm hane)
  have hmem := extract_payment_method_mem hm
  subst hr
  simp only [validate_payment_data, Bool.and_eq_true]
  refine ⟨⟨⟨⟨⟨?_, ?_⟩, ?_⟩, ?_⟩, ?_⟩, ?_⟩
  · rw [hst]; simpa using hsne
  · simpa [bne_iff_ne] using hane
  · rw [hpt]; simpa using hpne
  · simp only [valid_methods, List.mem_cons, List.not_mem_nil, or_false] at hmem
    rcases hmem with rfl | rfl | rfl | rfl <;> decide
  · simpa using not_le.mpr h0
  · simp only [valid_methods, List.mem_cons, List.not_mem_nil, or_false] at hmem
    rcases hmem with rfl | rfl | rfl | rfl <;> decide

theorem parse_none_of_service_none {text : PyStr}
    (h : extract_service_name (trim text) = none) : parse_payment_message text = none := by
  unfold parse_payment_message
  split
  · rfl
  · rw [h]

theorem parse_none_of_amount_none {text : PyStr}
    (h : extract_amount (trim text) = none) : parse_payment_message text = none := by
  unfold parse_payment_message
  split
  · rfl
  split
  · rfl
  split
  · rfl
  rw [h]

theorem parse_none_of_project_none {text : PyStr}
    (h : extract_project_name (trim text) = none) : parse_payment_message text = none := by
  unfold parse_payment_message
  split
  · rfl
  split
  · rfl
  split
  · rfl
  split
  · rfl
  split
  · rfl
  rw [h]

theorem parse_none_of_method_none {text : PyStr}
    (h : (extract_payment_method (trim text)).1 = none) : parse_payment_message text = none := by
  have hpair : extract_payment_method (trim text) =
      (none, (extract_payment_method (trim text)).2) := by
    rw [← h]
  unfold parse_payment_message
  split
  · rfl
  split
  · rfl
  split
  · rfl
  split
  · rfl
  split
  · rfl
  split
  · rfl
  split
  · rfl
  rw [hpair]

end PaymentParser

/-! ### Concrete example inputs (spec §8, end-to-end scenarios) -/

/-- Scenario 1: the classic structured payment request. -/
def exText1 : PyStr :=
  "Нужна оплата сервиса Facebook Ads на сумму 100$ для проекта Alpha, криптовалюта: 0x1234567890abcdef".toList

/-- The intent produced for `exText1`. -/
def exRes1 : PaymentData :=
  ⟨"Facebook Ads".toList, 100, "Alpha".toList, "crypto".toList, "0x1234567890abcdef".toList⟩

/-- Scenario 4: the same request with the amount written `-50$`. -/
def exTextNeg : PyStr :=
  "Нужна оплата сервиса Facebook Ads на сумму -50$ для проекта Alpha, криптовалюта: 0x1234567890abcdef".toList

/-- The intent the deterministic parser produces for `exTextNeg`: the regex
`\[?(\d+(?:[.,]\d+)?)\]?\s*[\$₽]` cannot capture a minus sign, so the
amount comes out as `50`. -/
def exResNeg : PaymentData :=
  ⟨"Facebook Ads".toList, 50, "Alpha".toList, "crypto".toList, "0x1234567890abcdef".toList⟩

/-- A text containing a phone-looking run before a crypto-looking string. -/
def exPhoneThenCrypto : PyStr := "телефон: +1234567890, кошелек: 0x1234567890ab".toList

/-- A text containing a crypto-looking string before a phone-looking run. -/
def exCryptoThenPhone : PyStr := "кошелек: 0x1234567890ab, телефон: +1234567890".toList

/-! ### Claim theorems -/

/-- C1: for every input text, `PaymentParser.parse_payment_message` returns
a payment intent only if the service name, amount, project name and payment
method are all simultaneously extracted and individually valid (the
returned record is built exactly from the four extraction results and
passes `validate_payment_data`); if any one extractor fails, the parser
returns `none` — never a partially-filled intent. -/
theorem C1_fail_closed (text : PyStr) :
    (∀ r : PaymentData, PaymentParser.parse_payment_message text = some r →
        PaymentParser.validate_payment_data r = true ∧
        ∃ s a p m dt,
          PaymentParser.extract_service_name (trim text) = some s ∧
          PaymentParser.extract_amount (trim text) = some a ∧
          PaymentParser.extract_project_name (trim text) = some p ∧
          PaymentParser.extract_payment_method (trim text) = (some m, dt) ∧
          r = ⟨trim s, a, trim p, m, trim dt⟩) ∧
    ((PaymentParser.extract_service_name (trim text) = none ∨
      PaymentParser.extract_amount (trim text) = none ∨
      PaymentParser.extract_project_name (trim text) = none ∨
      (PaymentParser.extract_payment_method (trim text)).1 = none) →
      PaymentParser.parse_payment_message text = none) := by
  constructor
  · intro r h
    refine ⟨PaymentParser.parse_payment_message_valid h, ?_⟩
    obtain ⟨s, a, p, m, dt, hs, _, ha, _, hp, _, hm, hr⟩ :=
      PaymentParser.parse_payment_message_spec h
    exact ⟨s, a, p, m, dt, hs, ha, hp, hm, hr⟩
  · rintro (h | h | h | h)
    · exact PaymentParser.parse_none_of_service_none h
    · exact PaymentParser.parse_none_of_amount_none h
    · exact PaymentParser.parse_none_of_project_none h
    · exact PaymentParser.parse_none_of_method_none h

set_option maxRecDepth 10000 in
/-- Witness for C1 at the scenario-1 input. -/
theorem C1_fail_closed_witness :
    PaymentParser.validate_payment_data exRes1 = true ∧
    ∃ s a p m dt,
      PaymentParser.extract_service_name (trim exText1) = some s ∧
      PaymentParser.extract_amount (trim exText1) = some a ∧
      PaymentParser.extract_project_name (trim exText1) = some p ∧
      PaymentParser.extract_payment_method (trim exText1) = (some m, dt) ∧
      exRes1 = ⟨trim s, a, trim p, m, trim dt⟩ :=
  (C1_fail_closed exText1).1 exRes1 (by decide)

theorem trim_nil_eq : trim ([] : PyStr) = [] := rfl

theorem parse_trim_guard {text : PyStr} {r : PaymentData}
    (h : PaymentParser.parse_payment_message (trim text) = some r) :
    (text.isEmpty || (trim text).isEmpty) = false := by
  by_contra hg
  rw [Bool.not_eq_false, Bool.or_eq_true] at hg
  rcases hg with hg | hg
  · have : text = [] := by simpa using hg
    subst this
    rw [trim_nil_eq] at h
    have hnone : PaymentParser.parse_payment_message [] = none := by decide
    rw [hnone] at h
    exact absurd h (by simp)
  · unfold PaymentParser.parse_payment_message at h
    rw [if_pos hg] at h
    exact absurd h (by simp)

/-- C2: whenever the deterministic parser succeeds on the (stripped) input
and its result passes validation, the Hybrid Orchestrator returns exactly
that result and the Structured-Extraction Client is not invoked, whatever
the client would have answered; conversely, the fallback path (client
invoked) is only ever entered when the deterministic path failed or its
result failed validation. -/
theorem C2_deterministic_short_circuit (text : PyStr)
    (nlp : Except Unit (Option PaymentData)) :
    (∀ r, PaymentParser.parse_payment_message (trim text) = some r →
        PaymentParser.validate_payment_data r = true →
        HybridPaymentParser.parse_payment_message nlp text = .ok (some r, false)) ∧
    (∀ res, HybridPaymentParser.parse_payment_message nlp text = .ok (res, true) →
        ∀ r, PaymentParser.parse_payment_message (trim text) = some r →
          PaymentParser.validate_payment_data r = false) := by
  have key : ∀ r, PaymentParser.parse_payment_message (trim text) = some r →
      PaymentParser.validate_payment_data r = true →
      HybridPaymentParser.parse_payment_message nlp text = .ok (some r, false) := by
    intro r h1 h2
    unfold HybridPaymentParser.parse_payment_message
    rw [parse_trim_guard h1]
    simp [h1, h2]
  refine ⟨key, ?_⟩
  intro res hres r h1
  by_contra hv
  rw [Bool.not_eq_false] at hv
  rw [key r h1 hv] at hres
  simp at hres

set_option maxRecDepth 10000 in
/-- Witness for C2: on the scenario-1 input the orchestrator returns the
deterministic result with the client-invoked flag `false`, even when the
client would have thrown. -/
theorem C2_deterministic_short_circuit_witness :
    HybridPaymentParser.parse_payment_message (.error ()) exText1 = .ok (some exRes1, false) :=
  (C2_deterministic_short_circuit exText1 (.error ())).1 exRes1 (by decide) (by decide)

theorem nlp_parse_ok {resp : Except Unit (Option PaymentJson)} {text : PyStr} {r : PaymentData}
    (h : NLPPaymentParser.parse_payment_message resp text = .ok (some r)) :
    ∃ d, resp = .ok (some d) ∧ NLPPaymentParser.validate_parsed_data d = true ∧
      r = NLPPaymentParser.normalize_data d := by
  unfold NLPPaymentParser.parse_payment_message at h
  split at h
  · exact absurd h (by simp)
  · rcases resp with e | o
    · simp [ecatch] at h
    · rcases o with _ | d
      · simp [ecatch] at h
      · by_cases hv : NLPPaymentParser.validate_parsed_data d = true
        · simp only [ecatch, hv, if_true] at h
          simp only [Except.ok.injEq, Option.some.injEq] at h
          exact ⟨d, rfl, hv, h.symm⟩
        · simp [ecatch, hv] at h

theorem nlp_normalize_amount_pos {d : PaymentJson}
    (hv : NLPPaymentParser.validate_parsed_data d = true) :
    0 < (NLPPaymentParser.normalize_data d).amount := by
  unfold NLPPaymentParser.validate_parsed_data at hv
  simp only [Bool.and_eq_true, decide_eq_true_eq] at hv
  exact hv.1.1.2

set_option maxRecDepth 10000 in
/-- C3 counterexample: a well-formed request whose amount is written
`-50$` still produces a payment intent on the deterministic path — the
minus sign is simply not part of what the amount regex captures, so the
intent carries `amount = 50`. -/
theorem C3_counterexample :
    containsSub "-50$".toList exTextNeg = true ∧
    PaymentParser.parse_payment_message exTextNeg = some exResNeg ∧
    PaymentParser.validate_payment_data exResNeg = true ∧
    exResNeg.amount = 50 := by
  refine ⟨by decide, by decide, by decide, by decide⟩

/-- C3 (amended): no payment intent with amount `≤ 0` is ever produced —
every intent returned by the deterministic parser, by the LLM path, or by
their hybrid composition has a strictly positive amount.  (The original
claim fails only in that a text containing the characters `-50$` can still
yield an intent, with amount `50`, because the minus sign is not captured;
see the counterexample.) -/
theorem C3_amount_positivity (text : PyStr) (resp : Except Unit (Option PaymentJson)) :
    (∀ r, PaymentParser.parse_payment_message text = some r → 0 < r.amount) ∧
    (∀ r, NLPPaymentParser.parse_payment_message resp text = .ok (some r) → 0 < r.amount) ∧
    (∀ r b, HybridPaymentParser.parse_with_nlp resp text = .ok (some r, b) → 0 < r.amount) := by
  have hdet : ∀ (t : PyStr) (r : PaymentData),
      PaymentParser.parse_payment_message t = some r → 0 < r.amount := by
    intro t r h
    obtain ⟨s, a, p, m, dt, _, _, ha, hane, _, _, _, hr⟩ :=
      PaymentParser.parse_payment_message_spec h
    rw [hr]
    exact lt_of_le_of_ne (PaymentParser.extract_amount_nonneg ha) (Ne.symm hane)
  have hnlp : ∀ (t : PyStr) (r : PaymentData),
      NLPPaymentParser.parse_payment_message resp t = .ok (some r) → 0 < r.amount := by
    intro t r h
    obtain ⟨d, _, hv, hr⟩ := nlp_parse_ok h
    rw [hr]
    exact nlp_normalize_amount_pos hv
  refine ⟨hdet text, hnlp text, ?_⟩
  intro r b h
  unfold HybridPaymentParser.parse_with_nlp HybridPaymentParser.parse_payment_message at h
  split at h
  · exact absurd h (by simp)
  · split at h
    · rename_i r' hr'
      split at h
      · simp only [Except.ok.injEq, Prod.mk.injEq, Option.some.injEq] at h
        rw [← h.1]
        exact hdet _ r' hr'
      · -- fallback: the NLP outcome was consumed
        unfold HybridPaymentParser.nlpFallback at h
        rcases hn : NLPPaymentParser.parse_payment_message resp (trim text) with e | o
        · rw [hn] at h
          simp [ecatch] at h
        · rcases o with _ | rn
          · rw [hn] at h
            simp [ecatch] at h
          · rw [hn] at h
            simp only [ecatch, Except.ok.injEq, Prod.mk.injEq, Option.some.injEq] at h
            rw [← h.1]
            exact hnlp _ rn hn
    · unfold HybridPaymentParser.nlpFallback at h
      rcases hn : NLPPaymentParser.parse_payment_message resp (trim text) with e | o
      · rw [hn] at h
        simp [ecatch] at h
      · rcases o with _ | rn
        · rw [hn] at h
          simp [ecatch] at h
        · rw [hn] at h
          simp only [ecatch, Except.ok.injEq, Prod.mk.injEq, Option.some.injEq] at h
          rw [← h.1]
          exact hnlp _ rn hn

set_option maxRecDepth 10000 in
/-- Witness for the amended C3 at the scenario-1 input. -/
theorem C3_amount_positivity_witness : 0 < exRes1.amount :=
  (C3_amount_positivity exText1 (.error ())).1 exRes1 (by decide)

/-- C9: whenever the input text matches one of the crypto-address patterns
at all (in particular when it also matches a phone-number pattern, in
either order of appearance), `PaymentParser._extract_payment_method`
classifies the payment method as `crypto`. -/
theorem C9_crypto_beats_phone (text : PyStr) :
    (firstSearch PaymentParser.crypto_patterns text).isSome = true →
    (firstSearch PaymentParser.phone_patterns text).isSome = true →
    (PaymentParser.extract_payment_method text).1 = some "crypto".toList := by
  intro hc _
  unfold PaymentParser.extract_payment_method
  obtain ⟨r, hr⟩ := Option.isSome_iff_exists.mp hc
  rw [hr]

/-- Witness for C9 on two texts containing both a crypto-looking string and
a phone-looking run, in both orders of appearance. -/
theorem C9_crypto_beats_phone_witness :
    (PaymentParser.extract_payment_method exPhoneThenCrypto).1 = some "crypto".toList ∧
    (PaymentParser.extract_payment_method exCryptoThenPhone).1 = some "crypto".toList :=
  ⟨C9_crypto_beats_phone exPhoneThenCrypto (by decide) (by decide),
   C9_crypto_beats_phone exCryptoThenPhone (by decide) (by decide)⟩

theorem manager_route_some (d : OpData) :
    manager_route (some d) =
      if d.confidence < mkRat 7 10 then .lowConfidence
      else if d.operation_type = "balance_add".toList then .balanceAdd
      else if d.operation_type = "balance_reset".toList then .balanceReset
      else if d.operation_type = "analytics_query".toList then .analyticsQuery
      else if d.operation_type = "system_command".toList then .systemCommand
      else .unknownOperation := rfl

/-- C4: the confidence gates are inclusive at their boundaries — a command
payload with confidence exactly `0.5` passes `_validate_command` (given a
recognized, permitted command), an operation intent with confidence exactly
`0.7` is dispatched by the manager router (never sent to the clarification
or unparseable paths), and any confidence strictly below the respective
threshold is rejected (commands) or routed to clarification (operations). -/
theorem C4_threshold_boundaries :
    (∀ (d : CmdJson) (role : Option PyStr) (c : PyStr),
        d.command = some c →
        CommandNLPParser.valid_commands.contains c = true →
        (∀ r, role = some r → ¬r.isEmpty = true →
          CommandNLPParser.check_command_permission c r = true) →
        d.confidence = some (mkRat 1 2) →
        CommandNLPParser.validate_command d role = true) ∧
    (∀ (d : CmdJson) (role : Option PyStr),
        d.confidence.getD 0 < mkRat 1 2 →
        CommandNLPParser.validate_command d role = false) ∧
    (∀ d : OpData, d.confidence = mkRat 7 10 →
        manager_route (some d) ≠ .lowConfidence ∧ manager_route (some d) ≠ .unparseable) ∧
    (∀ d : OpData, d.confidence < mkRat 7 10 →
        manager_route (some d) = .lowConfidence) := by
  refine ⟨?_, ?_, ?_, ?_⟩
  · intro d role c hc hvalid hperm hconf
    unfold CommandNLPParser.validate_command
    rw [hc, hconf]
    simp only [hvalid, Bool.true_and]
    have hconf2 : (!decide ((some (mkRat 1 2)).getD 0 < mkRat 1 2)) = true := by decide
    rw [hconf2, Bool.and_true]
    cases role with
    | none => rfl
    | some r =>
        by_cases hre : r.isEmpty = true
        · simp [hre]
        · simp [Bool.of_not_eq_true hre, hperm r rfl hre]
  · intro d role hconf
    unfold CommandNLPParser.validate_command
    cases hc : d.command with
    | none => rfl
    | some c =>
        have hd : (!decide (d.confidence.getD 0 < mkRat 1 2)) = false := by
          rw [decide_eq_true hconf]
          rfl
        rw [hd]
        simp
  · intro d hconf
    rw [manager_route_some, hconf]
    have : ¬(mkRat 7 10 < mkRat 7 10) := lt_irrefl _
    rw [if_neg this]
    constructor
    · split
      · simp
      · split
        · simp
        · split
          · simp
          · split
            · simp
            · simp
    · split
      · simp
      · split
        · simp
        · split
          · simp
          · split
            · simp
            · simp
  · intro d hconf
    rw [manager_route_some, if_pos hconf]

/-- Witness for C4 at the boundary values: a permitted `balance` command at
confidence exactly 0.5 is accepted and one at 0.49 is rejected; an
operation at confidence exactly 0.7 is dispatched and one at 0.69 goes to
clarification. -/
theorem C4_threshold_boundaries_witness :
    CommandNLPParser.validate_command ⟨some "balance".toList, some (mkRat 1 2)⟩
      (some "manager".toList) = true ∧
    CommandNLPParser.validate_command ⟨some "balance".toList, some (mkRat 49 100)⟩
      (some "manager".toList) = false ∧
    (manager_route (some ⟨"balance_add".toList, some 100, [], none, none, none, none, mkRat 7 10⟩) ≠
        .lowConfidence ∧
      manager_route (some ⟨"balance_add".toList, some 100, [], none, none, none, none, mkRat 7 10⟩) ≠
        .unparseable) ∧
    manager_route (some ⟨"balance_add".toList, some 100, [], none, none, none, none, mkRat 69 100⟩) =
      .lowConfidence :=
  ⟨C4_threshold_boundaries.1 _ _ _ rfl (by decide) (by intro r hr _; cases hr; decide) rfl,
   C4_threshold_boundaries.2.1 _ _ (by decide),
   C4_threshold_boundaries.2.2.1 _ rfl,
   C4_threshold_boundaries.2.2.2 _ (by decide)⟩

theorem nlp_normalize_validates {d : PaymentJson}
    (hv : NLPPaymentParser.validate_parsed_data d = true) :
    PaymentParser.validate_payment_data (NLPPaymentParser.normalize_data d) = true := by
  unfold NLPPaymentParser.validate_parsed_data at hv
  simp only [Bool.and_eq_true, decide_eq_true_eq] at hv
  obtain ⟨⟨⟨⟨⟨⟨⟨_, _⟩, _⟩, _⟩, hserv⟩, hamt⟩, hproj⟩, hmeth⟩ := hv
  have hmem : d.payment_method.getD [] ∈ PaymentParser.valid_methods := List.elem_iff.mp hmeth
  have hvalues : ∀ kv ∈ NLPPaymentParser.service_mappings, (kv.2 : PyStr) ≠ [] := by decide
  unfold PaymentParser.validate_payment_data NLPPaymentParser.normalize_data
  simp only [Bool.and_eq_true]
  refine ⟨⟨⟨⟨⟨?_, ?_⟩, ?_⟩, ?_⟩, ?_⟩, ?_⟩
  · unfold NLPPaymentParser.applyServiceMapping
    cases hf : NLPPaymentParser.service_mappings.find?
        (fun kv => containsSub kv.1 (lowerStr (trim (d.service_name.getD [])))) with
    | some kv =>
        have := hvalues kv (List.mem_of_find?_eq_some hf)
        simpa using this
    | none => simpa using hserv
  · simp only [bne_iff_ne, ne_eq]
    exact ne_of_gt hamt
  · simpa using hproj
  · simp only [PaymentParser.valid_methods, List.mem_cons, List.not_mem_nil, or_false] at hmem
    rcases hmem with hq | hq | hq | hq <;> rw [hq] <;> decide
  · simpa using not_le.mpr hamt
  · simp only [PaymentParser.valid_methods, List.mem_cons, List.not_mem_nil, or_false] at hmem
    rcases hmem with hq | hq | hq | hq <;> rw [hq] <;> decide

theorem nlpFallback_ok (resp : Except Unit (Option PaymentJson)) (t : PyStr) :
    ∃ o, HybridPaymentParser.nlpFallback (NLPPaymentParser.parse_payment_message resp t) = .ok o ∧
      ∀ r b, o = (some r, b) → PaymentParser.validate_payment_data r = true := by
  rcases hn : NLPPaymentParser.parse_payment_message resp t with e | o'
  · refine ⟨(none, true), by simp [HybridPaymentParser.nlpFallback, ecatch], ?_⟩
    intro r b hrb
    exact absurd hrb (by simp)
  · rcases o' with _ | rn
    · refine ⟨(none, true), by simp [HybridPaymentParser.nlpFallback, ecatch], ?_⟩
      intro r b hrb
      exact absurd hrb (by simp)
    · refine ⟨(some rn, true), by simp [HybridPaymentParser.nlpFallback, ecatch], ?_⟩
      intro r b hrb
      simp only [Prod.mk.injEq, Option.some.injEq] at hrb
      rw [← hrb.1]
      obtain ⟨dd, _, hvv, hrr⟩ := nlp_parse_ok hn
      rw [hrr]
      exact nlp_normalize_validates hvv

/-- C5: no exception escapes any public parse entry point — for every
input text and every outcome of the external call (including a thrown
exception and a non-JSON body), `HybridPaymentParser.parse_payment_message`
(composed with its NLP stage), `UniversalAIParser.parse_message` and
`CommandNLPParser.parse_command` return an `.ok` value; and whenever that
value carries an intent, the intent passed the corresponding validation
(payment intents satisfy `validate_payment_data`, operation intents are
normalizations of payloads accepted by `_validate_parsed_data`, command
intents satisfy `_validate_command`). -/
theorem C5_no_exception_escapes (text : PyStr)
    (respP : Except Unit (Option PaymentJson))
    (respO : Except Unit (Option OpJson))
    (respC : Except Unit (Option CmdJson))
    (role : Option PyStr) (urole : PyStr) :
    (∃ o, HybridPaymentParser.parse_with_nlp respP text = .ok o ∧
        ∀ r b, o = (some r, b) → PaymentParser.validate_payment_data r = true) ∧
    (∃ o, UniversalAIParser.parse_message respO text urole = .ok o ∧
        ∀ r, o = some r → ∃ d, UniversalAIParser.validate_parsed_data d = true ∧
          r = UniversalAIParser.normalize_parsed_data d) ∧
    (∃ o, CommandNLPParser.parse_command respC text role = .ok o ∧
        ∀ d, o = some d → CommandNLPParser.validate_command d role = true) := by
  refine ⟨?_, ?_, ?_⟩
  · unfold HybridPaymentParser.parse_with_nlp HybridPaymentParser.parse_payment_message
    split
    · refine ⟨(none, false), rfl, ?_⟩
      intro r b hrb
      exact absurd hrb (by simp)
    · split
      · rename_i r' hr'
        split
        · rename_i hv
          refine ⟨(some r', false), rfl, ?_⟩
          intro r b hrb
          simp only [Prod.mk.injEq, Option.some.injEq] at hrb
          rw [← hrb.1]
          exact hv
        · exact nlpFallback_ok respP (trim text)
      · exact nlpFallback_ok respP (trim text)
  · unfold UniversalAIParser.parse_message
    split
    · exact ⟨none, rfl, fun r hr => absurd hr (by simp)⟩
    · rcases respO with e | oo
      · exact ⟨none, by simp [ecatch], fun r hr => absurd hr (by simp)⟩
      · rcases oo with _ | d
        · exact ⟨none, by simp [ecatch], fun r hr => absurd hr (by simp)⟩
        · by_cases hv : UniversalAIParser.validate_parsed_data d = true
          · refine ⟨some (UniversalAIParser.normalize_parsed_data d), by simp [ecatch, hv], ?_⟩
            intro r hr
            simp only [Option.some.injEq] at hr
            exact ⟨d, hv, hr.symm⟩
          · exact ⟨none, by simp [ecatch, hv], fun r hr => absurd hr (by simp)⟩
  · unfold CommandNLPParser.parse_command
    split
    · exact ⟨none, rfl, fun d hd => absurd hd (by simp)⟩
    · rcases respC with e | oc
      · exact ⟨none, by simp [ecatch], fun d hd => absurd hd (by simp)⟩
      · rcases oc with _ | d
        · exact ⟨none, by simp [ecatch], fun d hd => absurd hd (by simp)⟩
        · by_cases hv : CommandNLPParser.validate_command d role = true
          · refine ⟨some d, by simp [ecatch, hv], ?_⟩
            intro d' hd'
            simp only [Option.some.injEq] at hd'
            rw [← hd']
            exact hv
          · exact ⟨none, by simp [ecatch, hv], fun d' hd' => absurd hd' (by simp)⟩

set_option maxRecDepth 10000 in
/-- Witness for C5: on the scenario-1 input with every external outcome an
exception, all three entry points return `.ok`. -/
theorem C5_no_exception_escapes_witness :
    (∃ o, HybridPaymentParser.parse_with_nlp (.error ()) exText1 = .ok o ∧
        ∀ r b, o = (some r, b) → PaymentParser.validate_payment_data r = true) ∧
    (∃ o, UniversalAIParser.parse_message (.error ()) exText1 "manager".toList = .ok o ∧
        ∀ r, o = some r → ∃ d, UniversalAIParser.validate_parsed_data d = true ∧
          r = UniversalAIParser.normalize_parsed_data d) ∧
    (∃ o, CommandNLPParser.parse_command (.error ()) exText1 (some "manager".toList) = .ok o ∧
        ∀ d, o = some d → CommandNLPParser.validate_command d (some "manager".toList) = true) :=
  C5_no_exception_escapes exText1 (.error ()) (.error ()) (.error ())
    (some "manager".toList) "manager".toList

theorem check_permission_balance (r : PyStr) :
    CommandNLPParser.check_command_permission "balance".toList r = true ↔
      (r = "financier".toList ∨ r = "manager".toList) := by
  have hfind : CommandNLPParser.permissions.find?
      (fun kv => kv.1 = "balance".toList) =
        some ("balance".toList, ["financier".toList, "manager".toList]) := by decide
  unfold CommandNLPParser.check_command_permission
  rw [hfind]
  constructor
  · intro h
    have := List.elem_iff.mp h
    simpa using this
  · intro h
    refine List.elem_iff.mpr ?_
    simpa using h

theorem check_permission_stats (r : PyStr) :
    CommandNLPParser.check_command_permission "stats".toList r = true ↔ r = "manager".toList := by
  have hfind : CommandNLPParser.permissions.find?
      (fun kv => kv.1 = "stats".toList) = some ("stats".toList, ["manager".toList]) := by decide
  unfold CommandNLPParser.check_command_permission
  rw [hfind]
  constructor
  · intro h
    have := List.elem_iff.mp h
    simpa using this
  · intro h
    refine List.elem_iff.mpr ?_
    simpa using h

theorem check_permission_start_help (r : PyStr) :
    (CommandNLPParser.check_command_permission "start".toList r = true ↔
      (r = "marketer".toList ∨ r = "financier".toList ∨ r = "manager".toList)) ∧
    (CommandNLPParser.check_command_permission "help".toList r = true ↔
      (r = "marketer".toList ∨ r = "financier".toList ∨ r = "manager".toList)) := by
  have hfind1 : CommandNLPParser.permissions.find?
      (fun kv => kv.1 = "start".toList) =
        some ("start".toList, ["marketer".toList, "financier".toList, "manager".toList]) := by
    decide
  have hfind2 : CommandNLPParser.permissions.find?
      (fun kv => kv.1 = "help".toList) =
        some ("help".toList, ["marketer".toList, "financier".toList, "manager".toList]) := by
    decide
  constructor <;> [rw [CommandNLPParser.check_command_permission, hfind1];
    rw [CommandNLPParser.check_command_permission, hfind2]] <;>
    constructor
  · intro h
    have := List.elem_iff.mp h
    simpa using this
  · intro h
    refine List.elem_iff.mpr ?_
    simpa using h
  · intro h
    have := List.elem_iff.mp h
    simpa using this
  · intro h
    refine List.elem_iff.mpr ?_
    simpa using h

/-- C6: commands are dispatched only to permitted roles.  The permission
table grants `balance` exactly to financier and manager, `stats` exactly to
manager, and `start`/`help` exactly to the three authorized roles; a parsed
command whose action is not permitted for the caller's role produces no
dispatch (`noAction`); the dispatch branches themselves only reach the
financier balance handler for role financier and the manager statistics
handler for role manager; and `start`/`help` dispatch for each of the three
roles. -/
theorem C6_role_permission_dispatch :
    (∀ r : PyStr,
      (CommandNLPParser.check_command_permission "balance".toList r = true ↔
        (r = "financier".toList ∨ r = "manager".toList)) ∧
      (CommandNLPParser.check_command_permission "stats".toList r = true ↔
        r = "manager".toList) ∧
      (CommandNLPParser.check_command_permission "start".toList r = true ↔
        (r = "marketer".toList ∨ r = "financier".toList ∨ r = "manager".toList)) ∧
      (CommandNLPParser.check_command_permission "help".toList r = true ↔
        (r = "marketer".toList ∨ r = "financier".toList ∨ r = "manager".toList))) ∧
    (∀ (role : PyStr) (text : PyStr) (d : CmdJson) (c : PyStr),
      role ≠ [] → d.command = some c →
      CommandNLPParser.check_command_permission c role = false →
      nlp_command_handler role (.ok (some d)) text = .noAction) ∧
    (∀ (role : PyStr) (resp : Except Unit (Option CmdJson)) (text : PyStr),
      nlp_command_handler role resp text = .financierBalance → role = "financier".toList) ∧
    (∀ (role : PyStr) (resp : Except Unit (Option CmdJson)) (text : PyStr),
      nlp_command_handler role resp text = .managerStats → role = "manager".toList) ∧
    (∀ (role : PyStr) (text : PyStr),
      role ∈ [("marketer".toList : PyStr), "financier".toList, "manager".toList] →
      (text.isEmpty || (trim text).isEmpty) = false →
      nlp_command_handler role (.ok (some ⟨some "start".toList, some 1⟩)) text =
        .startHandler ∧
      nlp_command_handler role (.ok (some ⟨some "help".toList, some 1⟩)) text =
        .helpHandler) := by
  refine ⟨?_, ?_, ?_, ?_, ?_⟩
  · intro r
    exact ⟨check_permission_balance r, check_permission_stats r,
      (check_permission_start_help r).1, (check_permission_start_help r).2⟩
  · intro role text d c hne hcmd hcheck
    have hemp : role.isEmpty = false := by
      cases role with
      | nil => exact absurd rfl hne
      | cons a as => rfl
    have hval : CommandNLPParser.validate_command d (some role) = false := by
      unfold CommandNLPParser.validate_command
      rw [hcmd]
      simp [hemp, hcheck]
    unfold nlp_command_handler
    split
    · rfl
    · split
      · rfl
      · have hpc : CommandNLPParser.parse_command (.ok (some d)) text (some role) = .ok none := by
          unfold CommandNLPParser.parse_command
          split
          · rfl
          · simp [ecatch, hval]
        rw [hpc]
  · intro role resp text h
    unfold nlp_command_handler at h
    split at h
    · exact absurd h (by simp)
    split at h
    · exact absurd h (by simp)
    split at h
    · exact absurd h (by simp)
    · exact absurd h (by simp)
    · split at h
      · exact absurd h (by simp)
      split at h
      · exact absurd h (by simp)
      split at h
      · split at h
        · split at h
          · exact absurd h (by simp)
          · rename_i hor hnman
            simp only [decide_eq_true_eq, Bool.or_eq_true] at hor
            rcases hor with hf | hm
            · exact hf
            · exact absurd hm hnman
        · exact absurd h (by simp)
      · split at h
        · split at h
          · exact absurd h (by simp)
          · exact absurd h (by simp)
        · exact absurd h (by simp)
  · intro role resp text h
    unfold nlp_command_handler at h
    split at h
    · exact absurd h (by simp)
    split at h
    · exact absurd h (by simp)
    split at h
    · exact absurd h (by simp)
    · exact absurd h (by simp)
    · split at h
      · exact absurd h (by simp)
      split at h
      · exact absurd h (by simp)
      split at h
      · split at h
        · split at h
          · rename_i hman
            exact hman
          · exact absurd h (by simp)
        · exact absurd h (by simp)
      · split at h
        · split at h
          · rename_i hman
            exact hman
          · exact absurd h (by simp)
        · exact absurd h (by simp)
  · intro role text hrole htext
    have hte : text.isEmpty = false := (Bool.or_eq_false_iff.mp htext).1
    simp only [List.mem_cons, List.not_mem_nil, or_false] at hrole
    have key : ∀ cmd : PyStr, cmd = "start".toList ∨ cmd = "help".toList →
        CommandNLPParser.parse_command (.ok (some ⟨some cmd, some 1⟩)) text (some role) =
          .ok (some ⟨some cmd, some 1⟩) := by
      intro cmd hcmd
      have hv : CommandNLPParser.validate_command ⟨some cmd, some 1⟩ (some role) = true := by
        rcases hrole with rfl | rfl | rfl <;> rcases hcmd with rfl | rfl <;> decide
      unfold CommandNLPParser.parse_command
      rw [htext]
      simp [ecatch, hv]
    constructor
    · unfold nlp_command_handler
      rw [hte, key "start".toList (Or.inl rfl)]
      rcases hrole with rfl | rfl | rfl <;> decide
    · unfold nlp_command_handler
      rw [hte, key "help".toList (Or.inr rfl)]
      rcases hrole with rfl | rfl | rfl <;> decide

/-- Witness for C6: for a marketer, a parsed `stats` command is not
dispatched; for a manager it is; `start` dispatches for a marketer. -/
theorem C6_role_permission_dispatch_witness :
    CommandNLPParser.check_command_permission "stats".toList "manager".toList = true ∧
    nlp_command_handler "marketer".toList
      (.ok (some ⟨some "stats".toList, some 1⟩)) "Статистика".toList = .noAction ∧
    nlp_command_handler "marketer".toList
      (.ok (some ⟨some "start".toList, some 1⟩)) "Привет".toList = .startHandler :=
  ⟨(C6_role_permission_dispatch.1 "manager".toList).2.1.mpr rfl,
   C6_role_permission_dispatch.2.1 "marketer".toList "Статистика".toList
     ⟨some "stats".toList, some 1⟩ "stats".toList (by decide) rfl (by decide),
   (C6_role_permission_dispatch.2.2.2.2 "marketer".toList "Привет".toList
     (by decide) (by decide)).1⟩

theorem normOptStr_some (s : PyStr) :
    UniversalAIParser.normOptStr (some s) = if s.isEmpty then none else some (trim s) := rfl

/-- A payload whose `platform` is a whitespace-only (hence truthy) string. -/
def exPayloadWS : OpJson :=
  ⟨some "balance_reset".toList, none, some "x".toList, some "  ".toList,
    none, none, none, some (mkRat 9 10)⟩

/-- C7 counterexample: a payload accepted by the Intent Normalizer whose
`platform` is the truthy string `"  "` normalizes to the empty string, not
to null — `str.strip()` is applied, but the empty-after-trim value is kept
as `""` because the falsiness test happens before trimming. -/
theorem C7_counterexample :
    UniversalAIParser.validate_parsed_data exPayloadWS = true ∧
    (UniversalAIParser.normalize_parsed_data exPayloadWS).platform = some [] ∧
    (UniversalAIParser.normalize_parsed_data exPayloadWS).platform ≠ none := by
  refine ⟨by decide, by decide, by decide⟩

/-- C7 (amended): in the Intent Normalizer each optional string field
(`platform`, `project`, `payment_method`, `payment_details`) is passed
through `normOptStr`: a field that is missing, null or empty *before*
trimming becomes null, and a non-empty field is trimmed (so a
whitespace-only field becomes the empty string, not null); `description`
is always trimmed to a (possibly empty) string, and `amount` is passed
through unchanged — no value is invented. -/
theorem C7_optional_field_normalization (d : OpJson)
    (_hacc : UniversalAIParser.validate_parsed_data d = true) :
    (∀ x : Option PyStr,
      ((x = none ∨ x = some []) → UniversalAIParser.normOptStr x = none) ∧
      (∀ s, x = some s → s ≠ [] → UniversalAIParser.normOptStr x = some (trim s))) ∧
    (UniversalAIParser.normalize_parsed_data d).platform =
      UniversalAIParser.normOptStr d.platform ∧
    (UniversalAIParser.normalize_parsed_data d).project =
      UniversalAIParser.normOptStr d.project ∧
    (UniversalAIParser.normalize_parsed_data d).payment_method =
      UniversalAIParser.normOptStr d.payment_method ∧
    (UniversalAIParser.normalize_parsed_data d).payment_details =
      UniversalAIParser.normOptStr d.payment_details ∧
    (UniversalAIParser.normalize_parsed_data d).description = trim (d.description.getD []) ∧
    (UniversalAIParser.normalize_parsed_data d).amount = d.amount := by
  refine ⟨?_, rfl, rfl, rfl, rfl, rfl, rfl⟩
  intro x
  constructor
  · rintro (rfl | rfl) <;> rfl
  · rintro s rfl hs
    rw [normOptStr_some, if_neg (by simp [hs])]

/-- An accepted payload with no whitespace-only optional fields. -/
def exPayloadOK : OpJson :=
  ⟨some "balance_add".toList, some 100, some " from partner ".toList, some " insta ".toList,
    none, none, none, some 1⟩

/-- Witness for the amended C7 at `exPayloadOK`. -/
theorem C7_optional_field_normalization_witness :
    (∀ x : Option PyStr,
      ((x = none ∨ x = some []) → UniversalAIParser.normOptStr x = none) ∧
      (∀ s, x = some s → s ≠ [] → UniversalAIParser.normOptStr x = some (trim s))) ∧
    (UniversalAIParser.normalize_parsed_data exPayloadOK).platform =
      UniversalAIParser.normOptStr exPayloadOK.platform ∧
    (UniversalAIParser.normalize_parsed_data exPayloadOK).project =
      UniversalAIParser.normOptStr exPayloadOK.project ∧
    (UniversalAIParser.normalize_parsed_data exPayloadOK).payment_method =
      UniversalAIParser.normOptStr exPayloadOK.payment_method ∧
    (UniversalAIParser.normalize_parsed_data exPayloadOK).payment_details =
      UniversalAIParser.normOptStr exPayloadOK.payment_details ∧
    (UniversalAIParser.normalize_parsed_data exPayloadOK).description =
      trim (exPayloadOK.description.getD []) ∧
    (UniversalAIParser.normalize_parsed_data exPayloadOK).amount = exPayloadOK.amount :=
  C7_optional_field_normalization exPayloadOK (by decide)

/-- C8 counterexample: the Normalizer is not idempotent — on the accepted
payload `exPayloadWS` (platform `"  "`) the first normalization yields
platform `""`, and re-running the Normalizer on that (itself accepted)
output turns `""` into null, so the results differ. -/
theorem C8_counterexample :
    UniversalAIParser.validate_parsed_data exPayloadWS = true ∧
    UniversalAIParser.validate_parsed_data
      (UniversalAIParser.opDataToJson (UniversalAIParser.normalize_parsed_data exPayloadWS)) =
        true ∧
    UniversalAIParser.normalize_parsed_data
      (UniversalAIParser.opDataToJson (UniversalAIParser.normalize_parsed_data exPayloadWS)) ≠
      UniversalAIParser.normalize_parsed_data exPayloadWS := by
  refine ⟨by decide, by decide, by decide⟩

theorem normOptStr_norm (x : Option PyStr)
    (h : UniversalAIParser.normOptStr x ≠ some []) :
    UniversalAIParser.normOptStr (UniversalAIParser.normOptStr x) =
      UniversalAIParser.normOptStr x := by
  cases x with
  | none => rfl
  | some s =>
      rw [normOptStr_some]
      by_cases hse : s.isEmpty = true
      · rw [if_pos hse]
        rfl
      · rw [if_neg hse, normOptStr_some]
        have ht : trim s ≠ [] := by
          intro hc
          apply h
          rw [normOptStr_some, if_neg hse, hc]
        rw [if_neg (by simp [ht]), trim_trim]

/-- C8 (amended): the Normalizer is idempotent on every accepted payload
none of whose normalized optional string fields is the empty string; the
whitespace-only case (normalized field `""`, which a second run turns into
null) is the only exception, as the counterexample shows. -/
theorem C8_normalizer_idempotent (d : OpJson)
    (_hacc : UniversalAIParser.validate_parsed_data d = true)
    (hp : (UniversalAIParser.normalize_parsed_data d).platform ≠ some [])
    (hpr : (UniversalAIParser.normalize_parsed_data d).project ≠ some [])
    (hpm : (UniversalAIParser.normalize_parsed_data d).payment_method ≠ some [])
    (hpd : (UniversalAIParser.normalize_parsed_data d).payment_details ≠ some []) :
    UniversalAIParser.normalize_parsed_data
        (UniversalAIParser.opDataToJson (UniversalAIParser.normalize_parsed_data d)) =
      UniversalAIParser.normalize_parsed_data d := by
  have e1 := normOptStr_norm d.platform hp
  have e2 := normOptStr_norm d.project hpr
  have e3 := normOptStr_norm d.payment_method hpm
  have e4 := normOptStr_norm d.payment_details hpd
  unfold UniversalAIParser.normalize_parsed_data UniversalAIParser.opDataToJson
  simp only [Option.getD_some, OpData.mk.injEq]
  exact ⟨trivial, trivial, trim_trim _, e1, e2, e3, e4, trivial⟩

/-- Witness for the amended C8 at `exPayloadOK`. -/
theorem C8_normalizer_idempotent_witness :
    UniversalAIParser.normalize_parsed_data
        (UniversalAIParser.opDataToJson (UniversalAIParser.normalize_parsed_data exPayloadOK)) =
      UniversalAIParser.normalize_parsed_data exPayloadOK :=
  C8_normalizer_idempotent exPayloadOK (by decide) (by decide) (by decide) (by decide)
    (by decide)

/-- Does the service name (lowercased) contain a Facebook alias
(`facebook`, `фейсбук`, `fb`)? -/
def fbHit (s : PyStr) : Bool :=
  containsSub "facebook".toList (lowerStr s) || containsSub "фейсбук".toList (lowerStr s) ||
    containsSub "fb".toList (lowerStr s)

/-- Google aliases (`google ads`, `гугл`, `гугл адс`). -/
def googleHit (s : PyStr) : Bool :=
  containsSub "google ads".toList (lowerStr s) || containsSub "гугл".toList (lowerStr s) ||
    containsSub "гугл адс".toList (lowerStr s)

/-- Instagram aliases (`instagram`, `инстаграм`, `insta`). -/
def instaHit (s : PyStr) : Bool :=
  containsSub "instagram".toList (lowerStr s) || containsSub "инстаграм".toList (lowerStr s) ||
    containsSub "insta".toList (lowerStr s)

/-- TikTok aliases (`tiktok`, `тикток`). -/
def tiktokHit (s : PyStr) : Bool :=
  containsSub "tiktok".toList (lowerStr s) || containsSub "тикток".toList (lowerStr s)

/-- YouTube aliases (`youtube`, `ютуб`). -/
def youtubeHit (s : PyStr) : Bool :=
  containsSub "youtube".toList (lowerStr s) || containsSub "ютуб".toList (lowerStr s)

theorem applyServiceMapping_eq_of {s : PyStr} {kv : PyStr × PyStr}
    (pre post : List (PyStr × PyStr))
    (hsm : NLPPaymentParser.service_mappings = pre ++ kv :: post)
    (hpre : ∀ e ∈ pre, containsSub e.1 (lowerStr s) = false)
    (hkv : containsSub kv.1 (lowerStr s) = true) :
    NLPPaymentParser.applyServiceMapping s = kv.2 := by
  have hn : List.find? (fun kv => containsSub kv.1 (lowerStr s)) pre = none := by
    rw [List.find?_eq_none]
    intro e he
    simp [hpre e he]
  unfold NLPPaymentParser.applyServiceMapping
  rw [hsm, List.find?_append, hn]
  simp only [Option.none_or, List.find?_cons, hkv]

theorem applyServiceMapping_eq_self {s : PyStr}
    (hall : ∀ e ∈ NLPPaymentParser.service_mappings, containsSub e.1 (lowerStr s) = false) :
    NLPPaymentParser.applyServiceMapping s = s := by
  have hn : List.find? (fun kv => containsSub kv.1 (lowerStr s))
      NLPPaymentParser.service_mappings = none := by
    rw [List.find?_eq_none]
    intro e he
    simp [hall e he]
  unfold NLPPaymentParser.applyServiceMapping
  rw [hn]

/-- The service name the C10 counterexample feeds to the normalizer. -/
def exServiceFbGoogle : PaymentJson :=
  ⟨some "fb гугл".toList, some 100, some "x".toList, some "crypto".toList, none⟩

/-- C10 counterexample: the service name `"fb гугл"` contains the Google
alias `гугл`, yet the normalizer rewrites it to `"Facebook Ads"`, because
the Facebook alias `fb` comes first in the mapping order — the per-family
rewrite claimed for Google does not hold on names that also contain an
earlier alias. -/
theorem C10_counterexample :
    containsSub "гугл".toList (lowerStr "fb гугл".toList) = true ∧
    NLPPaymentParser.validate_parsed_data exServiceFbGoogle = true ∧
    (NLPPaymentParser.normalize_data exServiceFbGoogle).service_name = "Facebook Ads".toList ∧
    (NLPPaymentParser.normalize_data exServiceFbGoogle).service_name ≠ "Google Ads".toList := by
  refine ⟨by decide, by decide, by decide, by decide⟩

/-- C10 (amended): the LLM-path normalizer rewrites the trimmed service
name to the canonical alias of the FIRST mapping key (in the fixed order
facebook, фейсбук, fb, google ads, гугл, гугл адс, instagram, инстаграм,
insta, tiktok, тикток, youtube, ютуб) contained in the lowercased name:
any name containing a Facebook alias becomes exactly `Facebook Ads`, and a
name containing a Google/Instagram/TikTok/YouTube alias becomes the
corresponding canonical name provided no earlier family's alias also
occurs; names containing no alias are returned trimmed but otherwise
unchanged. -/
theorem C10_service_alias_rewrite :
    (∀ d : PaymentJson, (NLPPaymentParser.normalize_data d).service_name =
        NLPPaymentParser.applyServiceMapping (trim (d.service_name.getD []))) ∧
    (∀ s, fbHit s = true →
        NLPPaymentParser.applyServiceMapping s = "Facebook Ads".toList) ∧
    (∀ s, googleHit s = true → fbHit s = false →
        NLPPaymentParser.applyServiceMapping s = "Google Ads".toList) ∧
    (∀ s, instaHit s = true → fbHit s = false → googleHit s = false →
        NLPPaymentParser.applyServiceMapping s = "Instagram Ads".toList) ∧
    (∀ s, tiktokHit s = true → fbHit s = false → googleHit s = false → instaHit s = false →
        NLPPaymentParser.applyServiceMapping s = "TikTok Ads".toList) ∧
    (∀ s, youtubeHit s = true → fbHit s = false → googleHit s = false → instaHit s = false →
        tiktokHit s = false →
        NLPPaymentParser.applyServiceMapping s = "YouTube Ads".toList) ∧
    (∀ s, fbHit s = false → googleHit s = false → instaHit s = false → tiktokHit s = false →
        youtubeHit s = false →
        NLPPaymentParser.applyServiceMapping s = s) := by
  refine ⟨fun d => rfl, ?_, ?_, ?_, ?_, ?_, ?_⟩
  · intro s h
    by_cases h1 : containsSub "facebook".toList (lowerStr s) = true
    · exact applyServiceMapping_eq_of [] _ rfl (by simp) h1
    · by_cases h2 : containsSub "фейсбук".toList (lowerStr s) = true
      · refine applyServiceMapping_eq_of [("facebook".toList, "Facebook Ads".toList)] _ rfl ?_ h2
        intro e he
        simp only [List.mem_singleton] at he
        rw [he]
        exact Bool.of_not_eq_true h1
      · have h3 : containsSub "fb".toList (lowerStr s) = true := by
          simp only [fbHit, Bool.or_eq_true] at h
          rcases h with (h | h) | h
          · exact absurd h h1
          · exact absurd h h2
          · exact h
        refine applyServiceMapping_eq_of
          [("facebook".toList, "Facebook Ads".toList),
           ("фейсбук".toList, "Facebook Ads".toList)] _ rfl ?_ h3
        intro e he
        simp only [List.mem_cons, List.not_mem_nil, or_false] at he
        rcases he with he | he <;> rw [he]
        · exact Bool.of_not_eq_true h1
        · exact Bool.of_not_eq_true h2
  · intro s h hfb
    simp only [fbHit, Bool.or_eq_true, not_or] at hfb
    rw [Bool.or_eq_false_iff, Bool.or_eq_false_iff] at hfb
    obtain ⟨⟨f1, f2⟩, f3⟩ := hfb
    by_cases h1 : containsSub "google ads".toList (lowerStr s) = true
    · refine applyServiceMapping_eq_of
        [("facebook".toList, "Facebook Ads".toList),
         ("фейсбук".toList, "Facebook Ads".toList),
         ("fb".toList, "Facebook Ads".toList)] _ rfl ?_ h1
      intro e he
      simp only [List.mem_cons, List.not_mem_nil, or_false] at he
      rcases he with he | he | he <;> rw [he] <;> assumption
    · by_cases h2 : containsSub "гугл".toList (lowerStr s) = true
      · refine applyServiceMapping_eq_of
          [("facebook".toList, "Facebook Ads".toList),
           ("фейсбук".toList, "Facebook Ads".toList),
           ("fb".toList, "Facebook Ads".toList),
           ("google ads".toList, "Google Ads".toList)] _ rfl ?_ h2
        intro e he
        simp only [List.mem_cons, List.not_mem_nil, or_false] at he
        rcases he with he | he | he | he <;> rw [he]
        · exact f1
        · exact f2
        · exact f3
        · exact Bool.of_not_eq_true h1
      · have h3 : containsSub "гугл адс".toList (lowerStr s) = true := by
          simp only [googleHit, Bool.or_eq_true] at h
          rcases h with (h | h) | h
          · exact absurd h h1
          · exact absurd h h2
          · exact h
        refine applyServiceMapping_eq_of
          [("facebook".toList, "Facebook Ads".toList),
           ("фейсбук".toList, "Facebook Ads".toList),
           ("fb".toList, "Facebook Ads".toList),
           ("google ads".toList, "Google Ads".toList),
           ("гугл".toList, "Google Ads".toList)] _ rfl ?_ h3
        intro e he
        simp only [List.mem_cons, List.not_mem_nil, or_false] at he
        rcases he with he | he | he | he | he <;> rw [he]
        · exact f1
        · exact f2
        · exact f3
        · exact Bool.of_not_eq_true h1
        · exact Bool.of_not_eq_true h2
  · intro s h hfb hg
    rw [fbHit, Bool.or_eq_false_iff, Bool.or_eq_false_iff] at hfb
    rw [googleHit, Bool.or_eq_false_iff, Bool.or_eq_false_iff] at hg
    obtain ⟨⟨f1, f2⟩, f3⟩ := hfb
    obtain ⟨⟨g1, g2⟩, g3⟩ := hg
    by_cases h1 : containsSub "instagram".toList (lowerStr s) = true
    · refine applyServiceMapping_eq_of
        [("facebook".toList, "Facebook Ads".toList),
         ("фейсбук".toList, "Facebook Ads".toList),
         ("fb".toList, "Facebook Ads".toList),
         ("google ads".toList, "Google Ads".toList),
         ("гугл".toList, "Google Ads".toList),
         ("гугл адс".toList, "Google Ads".toList)] _ rfl ?_ h1
      intro e he
      simp only [List.mem_cons, List.not_mem_nil, or_false] at he
      rcases he with he | he | he | he | he | he <;> rw [he] <;> assumption
    · by_cases h2 : containsSub "инстаграм".toList (lowerStr s) = true
      · refine applyServiceMapping_eq_of
          [("facebook".toList, "Facebook Ads".toList),
           ("фейсбук".toList, "Facebook Ads".toList),
           ("fb".toList, "Facebook Ads".toList),
           ("google ads".toList, "Google Ads".toList),
           ("гугл".toList, "Google Ads".toList),
           ("гугл адс".toList, "Google Ads".toList),
           ("instagram".toList, "Instagram Ads".toList)] _ rfl ?_ h2
        intro e he
        simp only [List.mem_cons, List.not_mem_nil, or_false] at he
        rcases he with he | he | he | he | he | he | he <;> rw [he]
        · exact f1
        · exact f2
        · exact f3
        · exact g1
        · exact g2
        · exact g3
        · exact Bool.of_not_eq_true h1
      · have h3 : containsSub "insta".toList (lowerStr s) = true := by
          simp only [instaHit, Bool.or_eq_true] at h
          rcases h with (h | h) | h
          · exact absurd h h1
          · exact absurd h h2
          · exact h
        refine applyServiceMapping_eq_of
          [("facebook".toList, "Facebook Ads".toList),
           ("фейсбук".toList, "Facebook Ads".toList),
           ("fb".toList, "Facebook Ads".toList),
           ("google ads".toList, "Google Ads".toList),
           ("гугл".toList, "Google Ads".toList),
           ("гугл адс".toList, "Google Ads".toList),
           ("instagram".toList, "Instagram Ads".toList),
           ("инстаграм".toList, "Instagram Ads".toList)] _ rfl ?_ h3
        intro e he
        simp only [List.mem_cons, List.not_mem_nil, or_false] at he
        rcases he with he | he | he | he | he | he | he | he <;> rw [he]
        · exact f1
        · exact f2
        · exact f3
        · exact g1
        · exact g2
        · exact g3
        · exact Bool.of_not_eq_true h1
        · exact Bool.of_not_eq_true h2
  · intro s h hfb hg hi
    rw [fbHit, Bool.or_eq_false_iff, Bool.or_eq_false_iff] at hfb
    rw [googleHit, Bool.or_eq_false_iff, Bool.or_eq_false_iff] at hg
    rw [instaHit, Bool.or_eq_false_iff, Bool.or_eq_false_iff] at hi
    obtain ⟨⟨f1, f2⟩, f3⟩ := hfb
    obtain ⟨⟨g1, g2⟩, g3⟩ := hg
    obtain ⟨⟨i1, i2⟩, i3⟩ := hi
    by_cases h1 : containsSub "tiktok".toList (lowerStr s) = true
    · refine applyServiceMapping_eq_of
        [("facebook".toList, "Facebook Ads".toList),
         ("фейсбук".toList, "Facebook Ads".toList),
         ("fb".toList, "Facebook Ads".toList),
         ("google ads".toList, "Google Ads".toList),
         ("гугл".toList, "Google Ads".toList),
         ("гугл адс".toList, "Google Ads".toList),
         ("instagram".toList, "Instagram Ads".toList),
         ("инстаграм".toList, "Instagram Ads".toList),
         ("insta".toList, "Instagram Ads".toList)] _ rfl ?_ h1
      intro e he
      simp only [List.mem_cons, List.not_mem_nil, or_false] at he
      rcases he with he | he | he | he | he | he | he | he | he <;> rw [he] <;> assumption
    · have h2 : containsSub "тикток".toList (lowerStr s) = true := by
        simp only [tiktokHit, Bool.or_eq_true] at h
        rcases h with h | h
        · exact absurd h h1
        · exact h
      refine applyServiceMapping_eq_of
        [("facebook".toList, "Facebook Ads".toList),
         ("фейсбук".toList, "Facebook Ads".toList),
         ("fb".toList, "Facebook Ads".toList),
         ("google ads".toList, "Google Ads".toList),
         ("гугл".toList, "Google Ads".toList),
         ("гугл адс".toList, "Google Ads".toList),
         ("instagram".toList, "Instagram Ads".toList),
         ("инстаграм".toList, "Instagram Ads".toList),
         ("insta".toList, "Instagram Ads".toList),
         ("tiktok".toList, "TikTok Ads".toList)] _ rfl ?_ h2
      intro e he
      simp only [List.mem_cons, List.not_mem_nil, or_false] at he
      rcases he with he | he | he | he | he | he | he | he | he | he <;> rw [he]
      · exact f1
      · exact f2
      · exact f3
      · exact g1
      · exact g2
      · exact g3
      · exact i1
      · exact i2
      · exact i3
      · exact Bool.of_not_eq_true h1
  · intro s h hfb hg hi ht
    rw [fbHit, Bool.or_eq_false_iff, Bool.or_eq_false_iff] at hfb
    rw [googleHit, Bool.or_eq_false_iff, Bool.or_eq_false_iff] at hg
    rw [instaHit, Bool.or_eq_false_iff, Bool.or_eq_false_iff] at hi
    rw [tiktokHit, Bool.or_eq_false_iff] at ht
    obtain ⟨⟨f1, f2⟩, f3⟩ := hfb
    obtain ⟨⟨g1, g2⟩, g3⟩ := hg
    obtain ⟨⟨i1, i2⟩, i3⟩ := hi
    obtain ⟨t1, t2⟩ := ht
    by_cases h1 : containsSub "youtube".toList (lowerStr s) = true
    · refine applyServiceMapping_eq_of
        [("facebook".toList, "Facebook Ads".toList),
         ("фейсбук".toList, "Facebook Ads".toList),
         ("fb".toList, "Facebook Ads".toList),
         ("google ads".toList, "Google Ads".toList),
         ("гугл".toList, "Google Ads".toList),
         ("гугл адс".toList, "Google Ads".toList),
         ("instagram".toList, "Instagram Ads".toList),
         ("инстаграм".toList, "Instagram Ads".toList),
         ("insta".toList, "Instagram Ads".toList),
         ("tiktok".toList, "TikTok Ads".toList),
         ("тикток".toList, "TikTok Ads".toList)] _ rfl ?_ h1
      intro e he
      simp only [List.mem_cons, List.not_mem_nil, or_false] at he
      rcases he with he | he | he | he | he | he | he | he | he | he | he <;> rw [he] <;>
        assumption
    · have h2 : containsSub "ютуб".toList (lowerStr s) = true := by
        simp only [youtubeHit, Bool.or_eq_true] at h
        rcases h with h | h
        · exact absurd h h1
        · exact h
      refine applyServiceMapping_eq_of
        [("facebook".toList, "Facebook Ads".toList),
         ("фейсбук".toList, "Facebook Ads".toList),
         ("fb".toList, "Facebook Ads".toList),
         ("google ads".toList, "Google Ads".toList),
         ("гугл".toList, "Google Ads".toList),
         ("гугл адс".toList, "Google Ads".toList),
         ("instagram".toList, "Instagram Ads".toList),
         ("инстаграм".toList, "Instagram Ads".toList),
         ("insta".toList, "Instagram Ads".toList),
         ("tiktok".toList, "TikTok Ads".toList),
         ("тикток".toList, "TikTok Ads".toList),
         ("youtube".toList, "YouTube Ads".toList)] _ rfl ?_ h2
      intro e he
      simp only [List.mem_cons, List.not_mem_nil, or_false] at he
      rcases he with he | he | he | he | he | he | he | he | he | he | he | he <;> rw [he]
      · exact f1
      · exact f2
      · exact f3
      · exact g1
      · exact g2
      · exact g3
      · exact i1
      · exact i2
      · exact i3
      · exact t1
      · exact t2
      · exact Bool.of_not_eq_true h1
  · intro s hfb hg hi ht hy
    rw [fbHit, Bool.or_eq_false_iff, Bool.or_eq_false_iff] at hfb
    rw [googleHit, Bool.or_eq_false_iff, Bool.or_eq_false_iff] at hg
    rw [instaHit, Bool.or_eq_false_iff, Bool.or_eq_false_iff] at hi
    rw [tiktokHit, Bool.or_eq_false_iff] at ht
    rw [youtubeHit, Bool.or_eq_false_iff] at hy
    obtain ⟨⟨f1, f2⟩, f3⟩ := hfb
    obtain ⟨⟨g1, g2⟩, g3⟩ := hg
    obtain ⟨⟨i1, i2⟩, i3⟩ := hi
    obtain ⟨t1, t2⟩ := ht
    obtain ⟨y1, y2⟩ := hy
    refine applyServiceMapping_eq_self ?_
    intro e he
    simp only [NLPPaymentParser.service_mappings, List.mem_cons, List.not_mem_nil,
      or_false] at he
    rcases he with he | he | he | he | he | he | he | he | he | he | he | he | he <;> rw [he] <;>
      assumption

/-- Witness for the amended C10: a Google-alias name with no Facebook alias
maps to `Google Ads`, and an unknown service is returned unchanged. -/
theorem C10_service_alias_rewrite_witness :
    NLPPaymentParser.applyServiceMapping "гугл".toList = "Google Ads".toList ∧
    NLPPaymentParser.applyServiceMapping "Яндекс".toList = "Яндекс".toList :=
  ⟨C10_service_alias_rewrite.2.2.1 "гугл".toList (by decide) (by decide),
   C10_service_alias_rewrite.2.2.2.2.2.2 "Яндекс".toList (by decide) (by decide) (by decide)
     (by decide) (by decide)⟩
